import Mathlib

/-!
Verification development for a small Figma-processing HTTP service
(`figma_api.py`). The Python source is shallowly embedded: each Python
function becomes a Lean definition over explicit data (JSON values are an
inductive type, the network is an oracle passed as an argument, the
filesystem is a finite map from paths to file contents, and Python
exceptions are an explicit error type threaded through `Except`).
-/

set_option autoImplicit false

namespace Figma

/-! ## Python runtime model -/

/-- JSON values, as produced by `response.json()` / `request.get_json()`.
Numbers are modelled as integers (no claim involves fractional values). -/
inductive JVal where
  | null
  | boolean (b : Bool)
  | num (n : Int)
  | str (s : String)
  | arr (elems : List JVal)
  | obj (fields : List (String × JVal))

/-- Python exceptions that the embedded code can raise.
`exc msg` models `Exception(msg)` / `ValueError(msg)` (whose `str` is the
message); `httpExc` models a `werkzeug` `HTTPException` raised by Flask's
`abort(code, description=...)` (whose `str` is `"<code> <name>: <description>"`);
`attrError` / `typeError` / `keyError` model `AttributeError` / `TypeError` /
`KeyError` (their exact messages are irrelevant to every claim, so they are
modelled with fixed placeholder text). -/
inductive PyExc where
  | exc (msg : String)
  | httpExc (code : Nat) (name : String) (description : String)
  | attrError
  | typeError
  | keyError

/-- `str(e)` for an exception `e`, as used by `abort(500, description=str(e))`. -/
def PyExc.toText : PyExc → String
  | .exc m => m
  | .httpExc code name description => toString code ++ " " ++ name ++ ": " ++ description
  | .attrError => "AttributeError"
  | .typeError => "TypeError"
  | .keyError => "KeyError"

/-- Python truthiness of a JSON value: `None`, `False`, `0`, `""`, `[]` and
`{}` are falsy, everything else is truthy. -/
def truthy : JVal → Bool
  | .null => false
  | .boolean b => b
  | .num n => n ≠ 0
  | .str s => s ≠ ""
  | .arr l => !l.isEmpty
  | .obj fields => !fields.isEmpty

/-- First value bound to key `k`, or the default (Python `dict` lookup
with a default; JSON object keys are assumed unique, so first-match
lookup agrees with Python's semantics). -/
def lookupD (fields : List (String × JVal)) (k : String) (dflt : JVal) : JVal :=
  match fields.lookup k with
  | some v => v
  | none => dflt

/-- `v.get(k, dflt)`: dictionaries answer the lookup, every other value
raises `AttributeError` (only `dict` has a `.get` attribute). -/
def pyGet (v : JVal) (k : String) (dflt : JVal) : Except PyExc JVal :=
  match v with
  | .obj fields => .ok (lookupD fields k dflt)
  | _ => .error .attrError

/-- `for x in v`: arrays yield their elements, strings their characters
(as one-character strings), dictionaries their keys; every other value
raises `TypeError` (not iterable). -/
def pyIter : JVal → Except PyExc (List JVal)
  | .arr l => .ok l
  | .str s => .ok (s.data.map (fun c => .str (String.mk [c])))
  | .obj fields => .ok (fields.map (fun p => .str p.1))
  | _ => .error .typeError

/-! ## URL identifier extraction (`extract_file_key`, figma_api.py:24-37) -/

/-- The character class `[a-zA-Z0-9_-]` of the capture groups. -/
def isIdChar (c : Char) : Bool :=
  c.isAlpha || c.isDigit || c = '_' || c = '-'

/-- Literal text preceding the capture group of
`r"figma\.com/(?:file|design)/([a-zA-Z0-9_-]+)"`, `file` branch. -/
def filePat : List Char := "figma.com/file/".data

/-- Same regex, `design` branch of the alternation. -/
def designPat : List Char := "figma.com/design/".data

/-- Literal text preceding the capture group of
`r"figma\.com/board/([a-zA-Z0-9_-]+)"`. -/
def boardPat : List Char := "figma.com/board/".data

/-- Attempt to match one branch at the current position: the literal
prefix must match and at least one identifier character must follow;
the captured text is the maximal run of identifier characters. -/
def tryMatchAt (pat : List Char) (s : List Char) : Option (List Char) :=
  if pat.isPrefixOf s then
    let captured := (s.drop pat.length).takeWhile isIdChar
    if captured = [] then none else some captured
  else none

/-- `re.search` for one of these patterns: scan positions left to right,
at each position try the alternation branches in order, return the first
capture found. -/
def searchKey (pats : List (List Char)) : List Char → Option (List Char)
  | [] => none
  | c :: rest =>
    match pats.findSome? (fun pat => tryMatchAt pat (c :: rest)) with
    | some k => some k
    | none => searchKey pats rest

/-- `extract_file_key` (figma_api.py:24-37): search the file/design
pattern first; only if it matches nowhere, search the board pattern;
otherwise raise `ValueError("Invalid Figma URL")`. -/
def extract_file_key (figma_url : String) : Except String String :=
  match searchKey [filePat, designPat] figma_url.data with
  | some k => .ok (String.mk k)
  | none =>
    match searchKey [boardPat] figma_url.data with
    | some k => .ok (String.mk k)
    | none => .error "Invalid Figma URL"

/-! ## Filesystem-path model (`os.path.join`, sanitization) -/

/-- ASCII model of the regex word class `\w` (Python's `\w` is
Unicode-aware; every claim about sanitization only needs that `\w`
never contains a path separator, which the ASCII restriction preserves). -/
def isWordChar (c : Char) : Bool :=
  c.isAlpha || c.isDigit || c = '_'

/-- Characters kept by `re.sub(r'[^\w\-_.]', '_', ...)`: the complement
class is everything outside word characters, `-`, `_` and `.`. -/
def keepChar (c : Char) : Bool :=
  isWordChar c || c = '-' || c = '_' || c = '.'

/-- `safe_node_id = re.sub(r'[^\w\-_.]', '_', frame['node_id'])`
(figma_api.py:121, downloader). -/
def safe_node_id (node_id : String) : String :=
  String.mk (node_id.data.map (fun c => if keepChar c then c else '_'))

/-- `safe_node_id = re.sub(r'[^\w\-_.]', '_', node_id)`
(figma_api.py:179, serve-image endpoint; textually the same substitution). -/
def serve_safe_node_id (node_id : String) : String :=
  String.mk (node_id.data.map (fun c => if keepChar c then c else '_'))

/-- Does the string start with `/`? (posix `os.path.isabs`). -/
def startsWithSlash (s : String) : Bool :=
  match s.data with
  | [] => false
  | c :: _ => c = '/'

/-- Does the string end with `/`? -/
def endsWithSlash (s : String) : Bool :=
  match s.data.getLast? with
  | some c => c = '/'
  | none => false

/-- Two-argument posix `os.path.join`: an absolute second component
replaces the first; otherwise a `/` separator is inserted unless the
first component is empty or already ends in `/`. -/
def pyJoin (a b : String) : String :=
  if startsWithSlash b then b
  else if a = "" || endsWithSlash a then a ++ b
  else a ++ "/" ++ b

/-- `UPLOAD_FOLDER = os.getenv("UPLOAD_FOLDER", "/app/uploads")`
(figma_api.py:18); modelled at its default value. -/
def UPLOAD_FOLDER : String := "/app/uploads"

/-- `frame_folder = os.path.join(UPLOAD_FOLDER, "frames")` (figma_api.py:105). -/
def frameFolder : String := pyJoin UPLOAD_FOLDER "frames"

/-- `session_folder = os.path.join(frame_folder, session_id)` (figma_api.py:108). -/
def sessionFolder (session_id : String) : String := pyJoin frameFolder session_id

/-! ## Frame extraction (`extract_frames`, figma_api.py:82-101) -/

/-- One record appended to `frames`: the dictionary
`{"name": frame.get("name", "Unnamed Frame"), "node_id": frame.get("id", ""), "type": "FRAME"}`
(the `"type"` entry is the constant `"FRAME"` and is never read again, so it
is not stored), later mutated by `frame['image_url'] = ...` in `process_figma`
(`imageUrl = none` models the key being absent). -/
structure Frame where
  name : JVal
  nodeId : JVal
  imageUrl : Option JVal

/-- Python `frame.get("type") != "FRAME"` is false exactly when the value is
the string `"FRAME"` (comparison of a non-string with a string is just
unequal, it does not raise). -/
def isFrameType : JVal → Bool
  | .str s => s = "FRAME"
  | _ => false

/-- Body of the inner loop of `extract_frames` for one child of a page. -/
def extractChild (acc : List Frame × List JVal) (child : JVal) :
    Except PyExc (List Frame × List JVal) := do
  let ty ← pyGet child "type" .null
  if isFrameType ty then
    let nm ← pyGet child "name" (.str "Unnamed Frame")
    let nid ← pyGet child "id" (.str "")
    let idv ← pyGet child "id" .null
    pure (acc.1 ++ [⟨nm, nid, none⟩], if truthy idv then acc.2 ++ [idv] else acc.2)
  else
    pure acc

/-- Body of the outer loop of `extract_frames` for one page:
`for frame in page.get("children", [])`. -/
def extractPage (acc : List Frame × List JVal) (page : JVal) :
    Except PyExc (List Frame × List JVal) := do
  let childrenV ← pyGet page "children" (.arr [])
  let children ← pyIter childrenV
  children.foldlM extractChild acc

/-- `extract_frames(file_data)` (figma_api.py:82-101). -/
def extract_frames (file_data : JVal) : Except PyExc (List Frame × List JVal) := do
  let document ← pyGet file_data "document" (.obj [])
  let pagesV ← pyGet document "children" (.arr [])
  let pages ← pyIter pagesV
  pages.foldlM extractPage ([], [])

/-! ## Python dict assignment / update -/

/-- `d[k] = v` on an insertion-ordered dictionary: replace in place if the
key exists, else append at the end (CPython semantics). -/
def setKey {β : Type} (d : List (String × β)) (k : String) (v : β) : List (String × β) :=
  if d.any (fun p => p.1 = k) then
    d.map (fun p => if p.1 = k then (k, v) else p)
  else d ++ [(k, v)]

/-- `d.update(ns)`: assign every entry of `ns` into `d` in order. -/
def updateDict {β : Type} (d ns : List (String × β)) : List (String × β) :=
  ns.foldl (fun acc p => setKey acc p.1 p.2) d

/-! ## Batch image rendering (`fetch_figma_frame_images`, figma_api.py:54-80) -/

/-- `max_ids_per_request = 100` (figma_api.py:56). -/
def max_ids_per_request : Nat := 100

/-- Fuel-driven helper for `chunkList` (fuel bounds the number of chunks by
the list length, making the recursion structural and hence computable by
the kernel). -/
def chunkListAux {α : Type} : Nat → List α → List (List α)
  | 0, _ => []
  | _ + 1, [] => []
  | fuel + 1, a :: as =>
    (a :: as).take max_ids_per_request :: chunkListAux fuel ((a :: as).drop max_ids_per_request)

/-- The consecutive slices `frame_ids[i:i+100]` for `i in range(0, len(frame_ids), 100)`
(figma_api.py:59-60); one network request is issued per element. -/
def chunkList {α : Type} (l : List α) : List (List α) := chunkListAux l.length l

/-- Outcome of the `requests.get(f"{BASE_URL}/images/{file_key}", ...)` call
for one chunk: either a transport failure (`requests.RequestException`) or a
response with a status code, a body text, the parsed top-level `err` field
(absent or a string — `data.get("err")`) and the parsed `images` mapping
(`data.get("images", {})`). -/
inductive RenderOutcome where
  | netErr (msg : String)
  | resp (status : Nat) (text : String) (err : Option String) (images : List (String × JVal))

/-- Truthiness of `data.get("err")`: absent (`None`) and `""` are falsy. -/
def errTruthy : Option String → Bool
  | none => false
  | some s => s ≠ ""

/-- The per-chunk body of the loop of `fetch_figma_frame_images`
(figma_api.py:67-78): 403, other non-200, a truthy `err` field and transport
failure each raise; otherwise the chunk's `images` mapping is returned. -/
def renderChunk (o : RenderOutcome) : Except PyExc (List (String × JVal)) :=
  match o with
  | .netErr m => .error (.exc ("Network error: " ++ m))
  | .resp status text err images =>
    if status = 403 then .error (.exc "Access denied: Check token permissions")
    else if status ≠ 200 then .error (.exc ("Figma API error: " ++ text))
    else if errTruthy err then .error (.exc ("Image rendering error: " ++ err.getD ""))
    else .ok images

/-- The chunk loop: on success merge via `image_urls.update(...)`, on any
failure the whole call raises (discarding `image_urls`). -/
def renderLoop (oracle : List String → RenderOutcome) :
    List (List String) → List (String × JVal) → Except PyExc (List (String × JVal))
  | [], image_urls => .ok image_urls
  | c :: cs, image_urls =>
    match renderChunk (oracle c) with
    | .error e => .error e
    | .ok imgs => renderLoop oracle cs (updateDict image_urls imgs)

/-- `fetch_figma_frame_images(file_key, frame_ids, ...)` (figma_api.py:54-80).
The network is an oracle from the request's file key and chunk of identifiers
to an outcome. -/
def fetch_figma_frame_images (oracle : String → List String → RenderOutcome)
    (file_key : String) (frame_ids : List String) : Except PyExc (List (String × JVal)) :=
  renderLoop (oracle file_key) (chunkList frame_ids) []

/-! ## Image download (`download_images`, figma_api.py:103-133) -/

/-- The filesystem: file contents (downloaded bytes, modelled as an opaque
string) by absolute path. Directory creation (`os.makedirs(..., exist_ok=True)`)
is idempotent and unobservable in this model. -/
def Fs : Type := String → Option String

/-- `open(filename, 'wb')` followed by `f.write(content)`: overwrite the
file's previous content, if any. -/
def writeFs (fs : Fs) (p content : String) : Fs :=
  fun q => if q = p then some content else fs q

/-- Outcome of the unauthenticated `requests.get(frame["image_url"])`:
transport failure / invalid URL (an exception – in particular
`requests.get("")` always raises `MissingSchema`) or a response with a
status code and body bytes. -/
inductive DlOutcome where
  | netErr (msg : String)
  | resp (status : Nat) (content : String)

/-- The per-frame body of the loop of `download_images` (figma_api.py:111-131).
Every failure path skips the frame and leaves the state unchanged: a missing
`image_url` key skips silently; a non-string URL makes `requests.get` raise
(caught, logged, skip); a transport failure is caught and logged; a non-200
status is logged as a warning; a non-string `node_id` makes `re.sub` raise
`TypeError` (caught, logged, skip). On success the bytes are written to
`<session folder>/<safe_node_id>.png` and the path is recorded under the
frame's node identifier. -/
def downloadStep (oracle : String → DlOutcome) (folder : String)
    (st : List (String × String) × Fs) (frame : Frame) : List (String × String) × Fs :=
  match frame.imageUrl with
  | none => st
  | some urlv =>
    match urlv with
    | .str url =>
      match oracle url with
      | .netErr _ => st
      | .resp status content =>
        if status = 200 then
          match frame.nodeId with
          | .str nid =>
            let filename := pyJoin folder (safe_node_id nid ++ ".png")
            (setKey st.1 nid filename, writeFs st.2 filename content)
          | _ => st
        else st
    | _ => st

/-- `download_images(frames, session_id)` (figma_api.py:103-133): returns the
`image_paths` mapping, the session folder path, and the updated filesystem. -/
def download_images (oracle : String → DlOutcome) (frames : List Frame)
    (session_id : String) (fs : Fs) : List (String × String) × String × Fs :=
  let folder := sessionFolder session_id
  let st := frames.foldl (downloadStep oracle folder) ([], fs)
  (st.1, folder, st.2)

/-- Does the download of this frame succeed (and hence write a file and
record a path)?  True exactly when the frame carries a string URL, the GET
returns status 200, and the node identifier is a string. -/
def dlSucceeds (oracle : String → DlOutcome) (frame : Frame) : Bool :=
  match frame.imageUrl, frame.nodeId with
  | some (.str url), .str _ =>
    match oracle url with
    | .resp status _ => status = 200
    | .netErr _ => false
  | _, _ => false

/-! ## Document fetch (`fetch_figma_file`, figma_api.py:39-52) -/

/-- Outcome of one `requests.get(f"{BASE_URL}/files/{file_key}", ...)`:
transport failure or a response with status, body text, and parsed JSON body. -/
inductive FileOutcome where
  | netErr (msg : String)
  | resp (status : Nat) (text : String) (body : JVal)

/-- `fetch_figma_file(file_key)` (figma_api.py:39-52). The network is a
trace of outcomes consumed one per request; the unconsumed remainder is
returned so that the number of attempts is observable (an empty trace
behaves as a transport failure). -/
def fetch_figma_file (file_key : String) (trace : List FileOutcome) :
    Except PyExc JVal × List FileOutcome :=
  match trace with
  | [] => (.error (.exc "Network error: no response"), [])
  | o :: rest =>
    match o with
    | .netErr m => (.error (.exc ("Network error: " ++ m)), rest)
    | .resp status text body =>
      if status = 403 then (.error (.exc ("403 Forbidden: " ++ text)), rest)
      else if status ≠ 200 then
        (.error (.exc ("Figma API error (Status " ++ toString status ++ "): " ++ text)), rest)
      else (.ok body, rest)

/-! ## HTTP façade (`process_figma`, figma_api.py:136-174; `get_image`, 177-183) -/

/-- Substring test (Python `needle in haystack` on `str`). -/
def strContains (haystack needle : List Char) : Bool :=
  match haystack with
  | [] => needle.isEmpty
  | _ :: rest => needle.isPrefixOf haystack || strContains rest needle

/-- `k in v` for a string `k`: key test on dictionaries, element test on
lists (only string elements can equal `k`), substring test on strings;
`in` on a number or `None` raises `TypeError` (not iterable). -/
def hasKeyStr (v : JVal) (k : String) : Except PyExc Bool :=
  match v with
  | .obj fields => .ok (fields.any (fun p => p.1 = k))
  | .arr l => .ok (l.any (fun e => match e with | .str s => s = k | _ => false))
  | .str s => .ok (strContains s.data k.data)
  | _ => .error .typeError

/-- `v[k]` for a string `k`: dictionary lookup (`KeyError` if absent);
lists and strings require integer indices and numbers are not
subscriptable, so everything else raises `TypeError`. -/
def pySubscript (v : JVal) (k : String) : Except PyExc JVal :=
  match v with
  | .obj fields =>
    match fields.lookup k with
    | some x => .ok x
    | none => .error .keyError
  | _ => .error .typeError

/-- Coerce to a Python `str`, raising `TypeError` otherwise (models
`re.search`, `",".join` and `os.path.join` rejecting non-string arguments). -/
def asStr : JVal → Except PyExc String
  | .str s => .ok s
  | _ => .error .typeError

/-- `image_urls.get(frame['node_id'], '')` where `image_urls` is a
string-keyed dictionary parsed from JSON: a non-string key is simply not
present, so the default is returned.  (Unhashable keys – lists or dicts –
would raise; the claims about `process_figma` only concern string node
identifiers.) -/
def dictGetJ (d : List (String × JVal)) (k : JVal) (dflt : JVal) : JVal :=
  match k with
  | .str s => lookupD d s dflt
  | _ => dflt

/-- `frame['node_id'] in image_paths` for a string-keyed dictionary. -/
def containsNodeKey (d : List (String × String)) (k : JVal) : Bool :=
  match k with
  | .str s => d.any (fun p => p.1 = s)
  | _ => false

/-- `image_paths.get(frame['node_id'], '')` for a string-valued dictionary. -/
def dictGetS (d : List (String × String)) (k : JVal) : String :=
  match k with
  | .str s =>
    match d.lookup s with
    | some v => v
    | none => ""
  | _ => ""

/-- `frame.get('image_url')` truthiness on an annotated frame. -/
def imageUrlTruthy (frame : Frame) : Bool :=
  match frame.imageUrl with
  | some v => truthy v
  | none => false

/-- The collaborators of one `/process-figma` request: the document-fetch
trace, the render oracle, the download oracle, and the initial filesystem. -/
structure Deps where
  fileTrace : List FileOutcome
  renderOracle : String → List String → RenderOutcome
  dlOracle : String → DlOutcome
  fs : Fs

/-- The success envelope `result` built at figma_api.py:157-168: the
pre-download count of frames with a truthy `image_url`, the
`{name, node_id, path}` triples of frames whose node identifier is in
`image_paths`, and the session folder. -/
structure SuccessResult where
  total_frames : Nat
  images : List (JVal × JVal × String)
  session_folder : String

/-- An HTTP response of the process endpoint: `jsonify({"status": "success",
"result": ...})` (HTTP 200) or an `abort(status, description)` error body. -/
inductive HttpResp where
  | success (r : SuccessResult)
  | errorResp (status : Nat) (description : String)

/-- The body of the `try:` block of `process_figma` (figma_api.py:138-170).
`body` is the value of `request.get_json()` (`none` models a missing or
undecodable body, which in every Flask version ends in an exception or a
falsy value – both paths below).  `abort(400, ...)` raises a werkzeug
`BadRequest`, modelled as `PyExc.httpExc`. -/
def process_inner (deps : Deps) (body : Option JVal) :
    Except PyExc (SuccessResult × Fs) :=
  match body with
  | none => .error (.httpExc 400 "Bad Request" "Missing figma_url or session_id")
  | some data =>
    if truthy data = false then
      .error (.httpExc 400 "Bad Request" "Missing figma_url or session_id")
    else
      match hasKeyStr data "figma_url" with
      | .error e => .error e
      | .ok hasU =>
        if hasU = false then
          .error (.httpExc 400 "Bad Request" "Missing figma_url or session_id")
        else
          match hasKeyStr data "session_id" with
          | .error e => .error e
          | .ok hasS =>
            if hasS = false then
              .error (.httpExc 400 "Bad Request" "Missing figma_url or session_id")
            else
              match pySubscript data "figma_url" with
              | .error e => .error e
              | .ok figma_url =>
                match pySubscript data "session_id" with
                | .error e => .error e
                | .ok session_id =>
                  match asStr figma_url with
                  | .error e => .error e
                  | .ok urlStr =>
                    match extract_file_key urlStr with
                    | .error m => .error (.exc m)
                    | .ok file_key =>
                      match (fetch_figma_file file_key deps.fileTrace).1 with
                      | .error e => .error e
                      | .ok file_data =>
                        match extract_frames file_data with
                        | .error e => .error e
                        | .ok (frames, frame_ids) =>
                          match frame_ids.mapM asStr with
                          | .error e => .error e
                          | .ok ids =>
                            match fetch_figma_frame_images deps.renderOracle
                                file_key ids with
                            | .error e => .error e
                            | .ok image_urls =>
                              let annotated := frames.map (fun f =>
                                { f with
                                  imageUrl := some (dictGetJ image_urls f.nodeId (.str "")) })
                              let total_frames :=
                                (annotated.filter imageUrlTruthy).length
                              match asStr session_id with
                              | .error e => .error e
                              | .ok sidStr =>
                                let dl := download_images deps.dlOracle annotated
                                  sidStr deps.fs
                                let images := (annotated.filter
                                    (fun f => containsNodeKey dl.1 f.nodeId)).map
                                  (fun f => (f.name, f.nodeId, dictGetS dl.1 f.nodeId))
                                .ok (⟨total_frames, images, dl.2.1⟩, dl.2.2)

/-- `process_figma` (figma_api.py:136-174).  The `except Exception` clause
catches every exception raised in the `try:` block – including the
`HTTPException` raised by `abort(400, ...)`, because werkzeug's
`HTTPException` subclasses `Exception` – and answers
`abort(500, description=str(e))`. -/
def process_figma (deps : Deps) (body : Option JVal) : HttpResp :=
  match process_inner deps body with
  | .ok (r, _) => .success r
  | .error e => .errorResp 500 (PyExc.toText e)

/-- A response of the image-serving endpoint: the file's bytes served with
the fixed `image/png` MIME type, or `abort(404, "Image not found")`. -/
inductive ServeResult where
  | fileResp (path content : String)
  | notFound

/-- `get_image(session_id, node_id)` (figma_api.py:177-183). -/
def get_image (fs : Fs) (session_id node_id : String) : ServeResult :=
  let safe := serve_safe_node_id node_id
  let image_path :=
    pyJoin (pyJoin (pyJoin UPLOAD_FOLDER "frames") session_id) (safe ++ ".png")
  match fs image_path with
  | none => .notFound
  | some content => .fileResp image_path content

/-! ## Sanitization lemmas -/

lemma safe_node_id_data (node_id : String) :
    (safe_node_id node_id).data =
      node_id.data.map (fun c => if keepChar c then c else '_') := rfl

lemma keepChar_of_mem_safe {node_id : String} {c : Char}
    (h : c ∈ (safe_node_id node_id).data) : keepChar c = true := by
  rw [safe_node_id_data] at h
  rcases List.mem_map.1 h with ⟨a, _, rfl⟩
  by_cases hk : keepChar a = true
  · simp [hk]
  · have hu : (if keepChar a then a else '_') = '_' := by simp [hk]
    rw [hu]
    decide

lemma ne_slash_of_keepChar {c : Char} (h : keepChar c = true) : c ≠ '/' := by
  rintro rfl
  revert h
  decide

lemma png_name_ne_slash {node_id : String} {c : Char}
    (h : c ∈ (safe_node_id node_id ++ ".png").data) : c ≠ '/' := by
  rw [String.data_append] at h
  rcases List.mem_append.1 h with h | h
  · exact ne_slash_of_keepChar (keepChar_of_mem_safe h)
  · have h4 : c ∈ ['.', 'p', 'n', 'g'] := h
    have h5 : c = '.' ∨ c = 'p' ∨ c = 'n' ∨ c = 'g' := by simpa using h4
    rcases h5 with rfl | rfl | rfl | rfl <;> decide

lemma png_name_startsWithSlash (node_id : String) :
    startsWithSlash (safe_node_id node_id ++ ".png") = false := by
  have hd : (safe_node_id node_id ++ ".png").data =
      (safe_node_id node_id).data ++ ".png".data := String.data_append _ _
  rw [startsWithSlash, hd]
  cases hsd : (safe_node_id node_id).data with
  | nil => decide
  | cons c cs =>
    have hmem : c ∈ (safe_node_id node_id).data := by
      rw [hsd]; exact List.mem_cons_self c cs
    have hc : c ≠ '/' := ne_slash_of_keepChar (keepChar_of_mem_safe hmem)
    simp [hc]

/-- C10: the node-identifier sanitization shared by the downloader
(figma_api.py:121) and the serve-image endpoint (figma_api.py:179) keeps
only word characters, hyphens, underscores and periods — in particular no
path separator — replaces each other character one-for-one (so the result
never shrinks or expands), and therefore the filename
`<safe_node_id>.png` joined onto the session directory is always a direct
child of that directory. -/
theorem safe_node_id_path_safety (node_id : String) :
    (∀ c ∈ (safe_node_id node_id).data, keepChar c = true) ∧
    (∀ c ∈ (safe_node_id node_id).data, c ≠ '/') ∧
    (safe_node_id node_id).length = node_id.length ∧
    (∀ c ∈ (safe_node_id node_id ++ ".png").data, c ≠ '/') ∧
    safe_node_id node_id ++ ".png" ≠ "" ∧
    (∀ folder : String, folder ≠ "" → endsWithSlash folder = false →
      pyJoin folder (safe_node_id node_id ++ ".png") =
        folder ++ "/" ++ (safe_node_id node_id ++ ".png")) := by
  refine ⟨fun c hc => keepChar_of_mem_safe hc,
    fun c hc => ne_slash_of_keepChar (keepChar_of_mem_safe hc),
    ?_, fun c hc => png_name_ne_slash hc, ?_, ?_⟩
  · show (safe_node_id node_id).data.length = node_id.data.length
    rw [safe_node_id_data]
    exact List.length_map _ _
  · intro h
    have hd := congrArg String.data h
    rw [String.data_append] at hd
    rcases List.append_eq_nil.1 hd with ⟨-, h2⟩
    exact absurd h2 (by decide)
  · intro folder hne hend
    rw [pyJoin, png_name_startsWithSlash, if_neg (by simp), if_neg]
    simp [hne, hend]

theorem safe_node_id_path_safety_witness :
    pyJoin "/app/uploads/frames/s1" (safe_node_id "a:b/../zz" ++ ".png") =
      "/app/uploads/frames/s1" ++ "/" ++ (safe_node_id "a:b/../zz" ++ ".png") :=
  (safe_node_id_path_safety "a:b/../zz").2.2.2.2.2 "/app/uploads/frames/s1"
    (by decide) (by decide)

/-! ## The process endpoint on requests with missing fields (C1) -/

/-- C1: a request body missing `figma_url` or `session_id` (or an absent
body) never invokes the pipeline (the response is the same for every
network/filesystem dependency), but the HTTP response is **500**, not 400:
`abort(400, description="Missing figma_url or session_id")` raises a
werkzeug `BadRequest`, which the handler's own `except Exception` clause
catches and converts into `abort(500, description=str(e))`, whose
description is `"400 Bad Request: Missing figma_url or session_id"`. -/
theorem process_figma_missing_field_responds_500 (deps : Deps) :
    process_figma deps
        (some (.obj [("figma_url", .str "https://www.figma.com/file/ABC123/Test")])) =
      .errorResp 500 "400 Bad Request: Missing figma_url or session_id" ∧
    process_figma deps (some (.obj [("session_id", .str "s1")])) =
      .errorResp 500 "400 Bad Request: Missing figma_url or session_id" ∧
    process_figma deps none =
      .errorResp 500 "400 Bad Request: Missing figma_url or session_id" :=
  ⟨rfl, rfl, rfl⟩

/-! ## Document fetch contract (C8) -/

/-- C8: `fetch_figma_file` returns the parsed body unchanged on HTTP 200,
fails with `"403 Forbidden: <body>"` on 403, with
`"Figma API error (Status <code>): <body>"` on any other non-200 status,
and with `"Network error: <message>"` on transport failure; exactly one
element of the outcome trace is consumed (one request attempt, no retry). -/
theorem fetch_figma_file_contract (file_key t m : String) (b : JVal)
    (status : Nat) (rest : List FileOutcome) :
    fetch_figma_file file_key (.resp 200 t b :: rest) = (.ok b, rest) ∧
    fetch_figma_file file_key (.resp 403 t b :: rest) =
      (.error (.exc ("403 Forbidden: " ++ t)), rest) ∧
    (status ≠ 200 → status ≠ 403 →
      fetch_figma_file file_key (.resp status t b :: rest) =
        (.error (.exc ("Figma API error (Status " ++ toString status ++ "): " ++ t)),
          rest)) ∧
    fetch_figma_file file_key (.netErr m :: rest) =
      (.error (.exc ("Network error: " ++ m)), rest) ∧
    (∀ o : FileOutcome, (fetch_figma_file file_key (o :: rest)).2 = rest) := by
  refine ⟨rfl, rfl, ?_, rfl, ?_⟩
  · intro h200 h403
    rw [fetch_figma_file, if_neg h403, if_pos h200]
  · intro o
    rcases o with m' | ⟨s', t', b'⟩
    · rfl
    · rw [fetch_figma_file]
      split
      · rfl
      · split <;> rfl

theorem fetch_figma_file_contract_witness :
    fetch_figma_file "KEY" [.resp 500 "oops" .null] =
      (.error (.exc ("Figma API error (Status " ++ toString 500 ++ "): oops")), []) :=
  (fetch_figma_file_contract "KEY" "oops" "" .null 500 []).2.2.1
    (by decide) (by decide)

/-! ## URL extraction lemmas (C4) -/

lemma takeWhile_all_append (p : Char → Bool) :
    ∀ (k q : List Char), k.all p = true → (∀ c, q.head? = some c → p c = false) →
      (k ++ q).takeWhile p = k
  | [], q, _, hq => by
    cases q with
    | nil => rfl
    | cons c q' =>
      simp only [List.nil_append, List.takeWhile_cons, hq c rfl]
      rfl
  | a :: k', q, hk, hq => by
    simp only [List.all_cons, Bool.and_eq_true] at hk
    simp only [List.cons_append, List.takeWhile_cons, hk.1, if_true,
      takeWhile_all_append p k' q hk.2 hq]

lemma tryMatchAt_self (pat k q : List Char) (hk : k ≠ [])
    (hall : k.all isIdChar = true) (hq : ∀ c, q.head? = some c → isIdChar c = false) :
    tryMatchAt pat (pat ++ (k ++ q)) = some k := by
  have h1 : pat.isPrefixOf (pat ++ (k ++ q)) = true :=
    List.isPrefixOf_iff_prefix.2 (List.prefix_append pat _)
  have h2 : (pat ++ (k ++ q)).drop pat.length = k ++ q := List.drop_left pat _
  rw [tryMatchAt, if_pos h1]
  simp only [h2, takeWhile_all_append isIdChar k q hall hq]
  simp [hk]

lemma isPrefixOf_append_false (p l x : List Char)
    (h1 : ¬ p <+: l) (h2 : ¬ l <+: p) : p.isPrefixOf (l ++ x) = false := by
  rw [← Bool.not_eq_true, List.isPrefixOf_iff_prefix]
  intro h
  rcases List.prefix_or_prefix_of_prefix h (List.prefix_append l x) with h' | h'
  · exact h1 h'
  · exact h2 h'

lemma tryMatchAt_mismatch (pat l x : List Char)
    (h1 : ¬ pat <+: l) (h2 : ¬ l <+: pat) : tryMatchAt pat (l ++ x) = none := by
  rw [tryMatchAt, if_neg]
  simp [isPrefixOf_append_false pat l x h1 h2]

lemma tryMatchAt_cons_ne (p : List Char) (c : Char) (rest : List Char)
    (hp : p.head? = some 'f') (hc : c ≠ 'f') : tryMatchAt p (c :: rest) = none := by
  cases p with
  | nil => simp at hp
  | cons a p' =>
    have ha : a = 'f' := by simpa using hp
    subst ha
    rw [tryMatchAt, if_neg]
    rw [List.isPrefixOf_iff_prefix, List.cons_prefix_cons]
    rintro ⟨h, -⟩
    exact hc h.symm

lemma searchKey_cons (pats : List (List Char)) (c : Char) (rest : List Char) :
    searchKey pats (c :: rest) =
      match pats.findSome? (fun pat => tryMatchAt pat (c :: rest)) with
      | some k => some k
      | none => searchKey pats rest := rfl

lemma searchKey_skip_ne (pats : List (List Char))
    (hpats : ∀ p ∈ pats, p.head? = some 'f') (c : Char) (rest : List Char)
    (hc : c ≠ 'f') : searchKey pats (c :: rest) = searchKey pats rest := by
  rw [searchKey_cons]
  have hnone : pats.findSome? (fun pat => tryMatchAt pat (c :: rest)) = none := by
    rw [List.findSome?_eq_none_iff]
    exact fun p hp => tryMatchAt_cons_ne p c rest (hpats p hp) hc
  rw [hnone]

lemma searchKey_append_skip (pats : List (List Char))
    (hpats : ∀ p ∈ pats, p.head? = some 'f') :
    ∀ (p t : List Char), (∀ c ∈ p, c ≠ 'f') →
      searchKey pats (p ++ t) = searchKey pats t
  | [], _, _ => rfl
  | c :: p', t, h => by
    rw [List.cons_append, searchKey_skip_ne pats hpats c _ (h c (List.mem_cons_self c p')),
      searchKey_append_skip pats hpats p' t (fun d hd => h d (List.mem_cons_of_mem c hd))]

lemma searchKey_none_of_no_f (pats : List (List Char))
    (hpats : ∀ p ∈ pats, p.head? = some 'f') :
    ∀ (s : List Char), (∀ c ∈ s, c ≠ 'f') → searchKey pats s = none
  | [], _ => rfl
  | c :: s', h => by
    rw [searchKey_skip_ne pats hpats c _ (h c (List.mem_cons_self c s')),
      searchKey_none_of_no_f pats hpats s' (fun d hd => h d (List.mem_cons_of_mem c hd))]

lemma searchFD_at_file (k q : List Char) (hk : k ≠ []) (hall : k.all isIdChar = true)
    (hq : ∀ c, q.head? = some c → isIdChar c = false) :
    searchKey [filePat, designPat] (filePat ++ (k ++ q)) = some k := by
  obtain ⟨c, rest, hcr⟩ : ∃ c rest, filePat ++ (k ++ q) = c :: rest := ⟨'f', _, rfl⟩
  rw [hcr, searchKey_cons, ← hcr, List.findSome?_cons,
    tryMatchAt_self filePat k q hk hall hq]

lemma searchFD_at_design (k q : List Char) (hk : k ≠ []) (hall : k.all isIdChar = true)
    (hq : ∀ c, q.head? = some c → isIdChar c = false) :
    searchKey [filePat, designPat] (designPat ++ (k ++ q)) = some k := by
  obtain ⟨c, rest, hcr⟩ : ∃ c rest, designPat ++ (k ++ q) = c :: rest := ⟨'f', _, rfl⟩
  rw [hcr, searchKey_cons, ← hcr, List.findSome?_cons,
    tryMatchAt_mismatch filePat designPat (k ++ q) (by decide) (by decide),
    List.findSome?_cons, tryMatchAt_self designPat k q hk hall hq]

lemma head_f_pats :
    ∀ p ∈ [filePat, designPat], List.head? p = some 'f' := by decide

lemma head_f_board : ∀ p ∈ [boardPat], List.head? p = some 'f' := by decide

/-- C4: a URL of the file/design shape with a captured identifier `k`
(identifier characters limited to letters, digits, underscore, hyphen;
the run ends at the end of the string or at the first non-identifier
character) extracts exactly `k`; a URL matching neither shape — in
particular any string without the letter `f`, which both patterns start
with — fails with `ValueError("Invalid Figma URL")`; and whenever the
file/design search succeeds it decides the result, the board pattern
being consulted only on its failure. -/
theorem extract_file_key_contract :
    (∀ p k q : List Char, 'f' ∉ p → k ≠ [] → k.all isIdChar = true →
      (∀ c, q.head? = some c → isIdChar c = false) →
      extract_file_key ⟨p ++ (filePat ++ (k ++ q))⟩ = .ok (String.mk k) ∧
      extract_file_key ⟨p ++ (designPat ++ (k ++ q))⟩ = .ok (String.mk k)) ∧
    (∀ s : String, searchKey [filePat, designPat] s.data = none →
      searchKey [boardPat] s.data = none →
      extract_file_key s = .error "Invalid Figma URL") ∧
    (∀ s : String, (∀ c ∈ s.data, c ≠ 'f') →
      extract_file_key s = .error "Invalid Figma URL") ∧
    (∀ (s : String) (k : List Char), searchKey [filePat, designPat] s.data = some k →
      extract_file_key s = .ok (String.mk k)) := by
  have hfd : ∀ (s : String) (k : List Char),
      searchKey [filePat, designPat] s.data = some k →
      extract_file_key s = .ok (String.mk k) := by
    intro s k h
    simp only [extract_file_key, h]
  refine ⟨?_, ?_, ?_, hfd⟩
  · intro p k q hp hk hall hq
    have hnp : ∀ c ∈ p, c ≠ 'f' := fun c hc he => hp (he ▸ hc)
    constructor
    · refine hfd _ k ?_
      show searchKey [filePat, designPat] (p ++ (filePat ++ (k ++ q))) = some k
      rw [searchKey_append_skip [filePat, designPat] head_f_pats p _ hnp,
        searchFD_at_file k q hk hall hq]
    · refine hfd _ k ?_
      show searchKey [filePat, designPat] (p ++ (designPat ++ (k ++ q))) = some k
      rw [searchKey_append_skip [filePat, designPat] head_f_pats p _ hnp,
        searchFD_at_design k q hk hall hq]
  · intro s h1 h2
    simp only [extract_file_key, h1, h2]
  · intro s hs
    simp only [extract_file_key,
      searchKey_none_of_no_f [filePat, designPat] head_f_pats s.data hs,
      searchKey_none_of_no_f [boardPat] head_f_board s.data hs]

theorem extract_file_key_contract_witness :
    extract_file_key "https://www.figma.com/file/ABC123/Test" = .ok "ABC123" := by
  have hq : ∀ c : Char, "/Test".data.head? = some c → isIdChar c = false := by
    intro c hc
    have h2 : some '/' = some c := hc
    cases h2
    decide
  exact (extract_file_key_contract.1 "https://www.".data "ABC123".data "/Test".data
    (by decide) (by decide) (by decide) hq).1

/-! ## Chunking and merge lemmas (C2, C5) -/

lemma chunkListAux_flatten {α : Type} :
    ∀ (fuel : Nat) (l : List α), l.length ≤ fuel → (chunkListAux fuel l).flatten = l
  | 0, [], _ => rfl
  | 0, _ :: _, h => absurd h (by simp)
  | _ + 1, [], _ => rfl
  | fuel + 1, a :: as, h => by
    have hlen : ((a :: as).drop max_ids_per_request).length ≤ fuel := by
      rw [List.length_drop]
      simp only [List.length_cons, max_ids_per_request] at h ⊢
      omega
    simp only [chunkListAux, List.flatten_cons, chunkListAux_flatten fuel _ hlen]
    exact List.take_append_drop _ _

lemma chunkListAux_mem {α : Type} :
    ∀ (fuel : Nat) (l : List α) (c : List α), c ∈ chunkListAux fuel l →
      c.length ≤ max_ids_per_request ∧ c ≠ []
  | 0, _, c, h => absurd h (List.not_mem_nil c)
  | _ + 1, [], c, h => absurd h (List.not_mem_nil c)
  | fuel + 1, a :: as, c, h => by
    rcases List.mem_cons.1 h with rfl | h'
    · refine ⟨by rw [List.length_take]; exact min_le_left _ _, ?_⟩
      apply List.ne_nil_of_length_pos
      rw [List.length_take]
      simp only [List.length_cons, max_ids_per_request]
      omega
    · exact chunkListAux_mem fuel _ c h'

/-- The lengths of the chunks of a list of length `n` (used only to
evaluate the concrete 250-identifier case). -/
def chunkLensAux : Nat → Nat → List Nat
  | 0, _ => []
  | _ + 1, 0 => []
  | fuel + 1, n + 1 =>
    min max_ids_per_request (n + 1) :: chunkLensAux fuel (n + 1 - max_ids_per_request)

lemma chunkListAux_map_length {α : Type} :
    ∀ (fuel : Nat) (l : List α),
      (chunkListAux fuel l).map List.length = chunkLensAux fuel l.length
  | 0, _ => by cases ‹List α› <;> rfl
  | _ + 1, [] => rfl
  | fuel + 1, a :: as => by
    simp only [chunkListAux, List.map_cons, List.length_take, List.length_cons,
      chunkListAux_map_length fuel _, List.length_drop, chunkLensAux]

lemma setKey_append_of_not_mem {β : Type} (d : List (String × β)) (k : String) (v : β)
    (h : ∀ p ∈ d, p.1 ≠ k) : setKey d k v = d ++ [(k, v)] := by
  rw [setKey, if_neg]
  intro hx
  rcases List.any_eq_true.1 hx with ⟨p, hp, he⟩
  exact h p hp (by simpa using he)

lemma updateDict_append_disjoint {β : Type} :
    ∀ (ns d : List (String × β)),
      (∀ p ∈ ns, ∀ q ∈ d, q.1 ≠ p.1) → (ns.map Prod.fst).Nodup →
      updateDict d ns = d ++ ns
  | [], d, _, _ => by simp [updateDict]
  | n :: ns', d, hdisj, hnod => by
    simp only [List.map_cons, List.nodup_cons] at hnod
    have h1 : setKey d n.1 n.2 = d ++ [n] :=
      setKey_append_of_not_mem d n.1 n.2
        (fun q hq => hdisj n (List.mem_cons_self n ns') q hq)
    have hdisj' : ∀ p ∈ ns', ∀ q ∈ d ++ [n], q.1 ≠ p.1 := by
      intro p hp q hq
      rcases List.mem_append.1 hq with hq' | hq'
      · exact hdisj p (List.mem_cons_of_mem n hp) q hq'
      · rcases List.mem_singleton.1 hq' with rfl
        intro he
        exact hnod.1 (by rw [he]; exact List.mem_map_of_mem Prod.fst hp)
    have hstep : updateDict d (n :: ns') = updateDict (setKey d n.1 n.2) ns' := rfl
    rw [hstep, h1, updateDict_append_disjoint ns' (d ++ [n]) hdisj' hnod.2,
      List.append_assoc]
    rfl

lemma renderLoop_ok_of_chunks (oracle : List String → RenderOutcome) :
    ∀ (chunks : List (List String)) (acc : List (String × JVal)),
      (∀ c ∈ chunks, ∃ imgs, renderChunk (oracle c) = .ok imgs ∧
        imgs.map Prod.fst = c) →
      (acc.map Prod.fst ++ chunks.flatten).Nodup →
      ∃ m, renderLoop oracle chunks acc = .ok m ∧
        m.map Prod.fst = acc.map Prod.fst ++ chunks.flatten
  | [], acc, _, _ => ⟨acc, rfl, by simp⟩
  | c :: cs, acc, hresp, hnod => by
    rcases hresp c (List.mem_cons_self c cs) with ⟨imgs, hok, hkeys⟩
    rw [List.flatten_cons, ← List.append_assoc] at hnod
    have hleft : (acc.map Prod.fst ++ c).Nodup := (List.nodup_append.1 hnod).1
    rcases List.nodup_append.1 hleft with ⟨-, hcnod, hdisj⟩
    have hupd : updateDict acc imgs = acc ++ imgs := by
      apply updateDict_append_disjoint
      · intro p hp q hq he
        have hpc : p.1 ∈ c := by rw [← hkeys]; exact List.mem_map_of_mem Prod.fst hp
        exact hdisj (List.mem_map_of_mem Prod.fst hq) (he ▸ hpc)
      · rw [hkeys]; exact hcnod
    have hkeys' : (acc ++ imgs).map Prod.fst = acc.map Prod.fst ++ c := by
      rw [List.map_append, hkeys]
    have hnod' : ((acc ++ imgs).map Prod.fst ++ cs.flatten).Nodup := by
      rw [hkeys']; exact hnod
    rcases renderLoop_ok_of_chunks oracle cs (acc ++ imgs)
        (fun d hd => hresp d (List.mem_cons_of_mem c hd)) hnod' with ⟨m, hm, hmk⟩
    refine ⟨m, ?_, ?_⟩
    · simp only [renderLoop, hok, hupd]
      exact hm
    · rw [hmk, hkeys', List.flatten_cons, List.append_assoc]

/-- C2: the identifier list is split into consecutive chunks of at most
100 (`max_ids_per_request`) identifiers whose concatenation is the input
(so one request per chunk, 250 identifiers giving sizes 100/100/50), and
when every chunk's request succeeds with a mapping over exactly its
identifiers, the merged result maps exactly the input identifiers, in
order, with none lost or duplicated. -/
theorem fetch_figma_frame_images_chunking
    (oracle : String → List String → RenderOutcome) (file_key : String)
    (frame_ids : List String)
    (hresp : ∀ c ∈ chunkList frame_ids, ∃ imgs,
      renderChunk (oracle file_key c) = .ok imgs ∧ imgs.map Prod.fst = c)
    (hnodup : frame_ids.Nodup) :
    (chunkList frame_ids).flatten = frame_ids ∧
    (∀ c ∈ chunkList frame_ids, c.length ≤ max_ids_per_request ∧ c ≠ []) ∧
    (frame_ids.length = 250 → (chunkList frame_ids).map List.length = [100, 100, 50]) ∧
    (∃ m, fetch_figma_frame_images oracle file_key frame_ids = .ok m ∧
      m.map Prod.fst = frame_ids) := by
  have hflat : (chunkList frame_ids).flatten = frame_ids :=
    chunkListAux_flatten frame_ids.length frame_ids le_rfl
  refine ⟨hflat, fun c hc => chunkListAux_mem _ _ c hc, ?_, ?_⟩
  · intro h250
    rw [chunkList, chunkListAux_map_length frame_ids.length frame_ids, h250]
    decide
  · rcases renderLoop_ok_of_chunks (oracle file_key) (chunkList frame_ids) []
        hresp (by simpa [hflat] using hnodup) with ⟨m, hm, hmk⟩
    exact ⟨m, hm, by simpa [hflat] using hmk⟩

/-- Oracle used to instantiate the C2 theorem: every chunk succeeds with
one URL per requested identifier. -/
def renderOracleC2 : String → List String → RenderOutcome :=
  fun _ c => .resp 200 "" none (c.map (fun k => (k, .str ("https://img.example/" ++ k))))

theorem fetch_figma_frame_images_chunking_witness :
    ∃ m, fetch_figma_frame_images renderOracleC2 "KEY" ["a", "b"] = .ok m ∧
      m.map Prod.fst = ["a", "b"] := by
  refine (fetch_figma_frame_images_chunking renderOracleC2 "KEY" ["a", "b"]
    ?_ (by decide)).2.2.2
  intro c hc
  have hc' : c ∈ [["a", "b"]] := hc
  rcases List.mem_singleton.1 hc' with rfl
  exact ⟨_, rfl, rfl⟩

/-- Does this chunk outcome make the whole batch raise? (transport
failure, HTTP 403, any other non-200 status, or a truthy `err` field). -/
def chunkFails (o : RenderOutcome) : Bool :=
  match o with
  | .netErr _ => true
  | .resp status _ err _ => status = 403 || status ≠ 200 || errTruthy err

lemma renderChunk_cases (o : RenderOutcome) :
    (chunkFails o = true → ∃ e, renderChunk o = .error e) ∧
    (chunkFails o = false → ∃ imgs, renderChunk o = .ok imgs) := by
  constructor <;> intro h
  · rcases o with m | ⟨status, text, err, images⟩
    · exact ⟨_, rfl⟩
    · simp only [chunkFails, Bool.or_eq_true, decide_eq_true_eq] at h
      rw [renderChunk]
      by_cases h403 : status = 403
      · rw [if_pos h403]; exact ⟨_, rfl⟩
      · rw [if_neg h403]
        by_cases h200 : status ≠ 200
        · rw [if_pos h200]; exact ⟨_, rfl⟩
        · rw [if_neg h200]
          have herr : errTruthy err = true := by
            rcases h with (h' | h') | h'
            · exact absurd h' h403
            · exact absurd h' h200
            · exact h'
          rw [if_pos herr]; exact ⟨_, rfl⟩
  · rcases o with m | ⟨status, text, err, images⟩
    · simp [chunkFails] at h
    · simp only [chunkFails, Bool.or_eq_false_iff, decide_eq_false_iff_not,
        not_not] at h
      rw [renderChunk, if_neg h.1.1, if_neg (by simpa using h.1.2), if_neg (by simp [h.2])]
      exact ⟨images, rfl⟩

lemma renderLoop_error_of_fails (oracle : List String → RenderOutcome) :
    ∀ (chunks : List (List String)) (acc : List (String × JVal)),
      (∃ c ∈ chunks, chunkFails (oracle c) = true) →
      ∃ e, renderLoop oracle chunks acc = .error e
  | [], _, h => absurd h (by simp)
  | c :: cs, acc, h => by
    by_cases hc : chunkFails (oracle c) = true
    · rcases (renderChunk_cases (oracle c)).1 hc with ⟨e, he⟩
      exact ⟨e, by simp only [renderLoop, he]⟩
    · have hc' : chunkFails (oracle c) = false := by
        rcases Bool.eq_false_or_eq_true (chunkFails (oracle c)) with h' | h'
        · exact absurd h' hc
        · exact h'
      rcases (renderChunk_cases (oracle c)).2 hc' with ⟨imgs, hok⟩
      have htail : ∃ d ∈ cs, chunkFails (oracle d) = true := by
        rcases h with ⟨d, hd, hfail⟩
        rcases List.mem_cons.1 hd with rfl | hd'
        · exact absurd hfail hc
        · exact ⟨d, hd', hfail⟩
      rcases renderLoop_error_of_fails oracle cs (updateDict acc imgs) htail with ⟨e, he⟩
      refine ⟨e, ?_⟩
      simp only [renderLoop, hok]
      exact he

/-- C5: if any chunk of the batch fails (transport failure, HTTP 403, any
other non-200 status, or an HTTP 200 response carrying a truthy top-level
`err` field), the whole `fetch_figma_frame_images` call raises and returns
no mapping: the result is an `Except.error`, so every mapping merged from
earlier successful chunks is discarded. -/
theorem fetch_figma_frame_images_all_or_nothing
    (oracle : String → List String → RenderOutcome) (file_key : String)
    (frame_ids : List String)
    (hfail : ∃ c ∈ chunkList frame_ids, chunkFails (oracle file_key c) = true) :
    ∃ e, fetch_figma_frame_images oracle file_key frame_ids = .error e :=
  renderLoop_error_of_fails (oracle file_key) (chunkList frame_ids) [] hfail

/-- Oracle used to instantiate the C5 theorem: every chunk gets HTTP 403. -/
def renderOracleC5 : String → List String → RenderOutcome :=
  fun _ _ => .resp 403 "Forbidden" none []

theorem fetch_figma_frame_images_all_or_nothing_witness :
    ∃ e, fetch_figma_frame_images renderOracleC5 "KEY" ["a"] = .error e :=
  fetch_figma_frame_images_all_or_nothing renderOracleC5 "KEY" ["a"]
    ⟨["a"], by decide, rfl⟩

/-! ## Download lemmas (C7, C9) -/

lemma dlSucceeds_nodeId_str {oracle : String → DlOutcome} {f : Frame}
    (h : dlSucceeds oracle f = true) : ∃ nid, f.nodeId = .str nid := by
  rcases f with ⟨nm, nid, iu⟩
  rcases iu with _ | urlv
  · simp [dlSucceeds] at h
  rcases urlv with _ | b | n | url | l | ofs <;>
    rcases nid with _ | b2 | n2 | s2 | l2 | ofs2 <;>
      first
      | exact ⟨s2, rfl⟩
      | simp [dlSucceeds] at h

lemma downloadStep_skip (oracle : String → DlOutcome) (folder : String)
    (st : List (String × String) × Fs) (f : Frame)
    (h : dlSucceeds oracle f = false) : downloadStep oracle folder st f = st := by
  rcases f with ⟨nm, nid, iu⟩
  rcases iu with _ | urlv
  · rfl
  rcases urlv with _ | b | n | url | l | ofs
  case str =>
    cases horacle : oracle url with
    | netErr m => simp [downloadStep, horacle]
    | resp status content =>
      by_cases h200 : status = 200
      · subst h200
        rcases nid with _ | b2 | n2 | s2 | l2 | ofs2
        · simp [downloadStep, horacle]
        · simp [downloadStep, horacle]
        · simp [downloadStep, horacle]
        · simp [dlSucceeds, horacle] at h
        · simp [downloadStep, horacle]
        · simp [downloadStep, horacle]
      · simp [downloadStep, horacle, h200]
  all_goals rfl

lemma downloadStep_succ (oracle : String → DlOutcome) (folder : String)
    (st : List (String × String) × Fs) (f : Frame) (nid : String)
    (hn : f.nodeId = .str nid) (h : dlSucceeds oracle f = true) :
    ∃ url content, f.imageUrl = some (.str url) ∧ oracle url = .resp 200 content ∧
      downloadStep oracle folder st f =
        (setKey st.1 nid (pyJoin folder (safe_node_id nid ++ ".png")),
         writeFs st.2 (pyJoin folder (safe_node_id nid ++ ".png")) content) := by
  rcases f with ⟨nm, nid', iu⟩
  have hn' : nid' = .str nid := hn
  subst hn'
  rcases iu with _ | urlv
  · simp [dlSucceeds] at h
  rcases urlv with _ | b | n | url | l | ofs
  case str =>
    cases horacle : oracle url with
    | netErr m => simp [dlSucceeds, horacle] at h
    | resp status content =>
      have h200 : status = 200 := by simpa [dlSucceeds, horacle] using h
      subst h200
      exact ⟨url, content, rfl, horacle, by simp [downloadStep, horacle]⟩
  all_goals simp [dlSucceeds] at h

lemma setKey_keys_mem {β : Type} (d : List (String × β)) (k : String) (v : β)
    (m : String) :
    m ∈ (setKey d k v).map Prod.fst ↔ m ∈ d.map Prod.fst ∨ m = k := by
  rw [setKey]
  by_cases h : d.any (fun p => p.1 = k) = true
  · rw [if_pos h]
    have hmap : (d.map (fun p => if p.1 = k then (k, v) else p)).map Prod.fst =
        d.map Prod.fst := by
      rw [List.map_map]
      apply List.map_congr_left
      intro p _
      by_cases hp : p.1 = k
      · simp [hp]
      · simp [hp]
    rw [hmap]
    constructor
    · exact Or.inl
    · rintro (hm | rfl)
      · exact hm
      · rcases List.any_eq_true.1 h with ⟨p, hp, he⟩
        have hpk : p.1 = m := by simpa using he
        exact hpk ▸ List.mem_map_of_mem Prod.fst hp
  · rw [if_neg h]
    rw [List.map_append, List.mem_append]
    simp

lemma setKey_mem_self {β : Type} (d : List (String × β)) (k : String) (v : β) :
    (k, v) ∈ setKey d k v := by
  rw [setKey]
  by_cases h : d.any (fun p => p.1 = k) = true
  · rw [if_pos h]
    rcases List.any_eq_true.1 h with ⟨p, hp, he⟩
    have hpk : p.1 = k := by simpa using he
    exact List.mem_map.2 ⟨p, hp, by simp [hpk]⟩
  · rw [if_neg h]
    exact List.mem_append.2 (Or.inr (List.mem_singleton.2 rfl))

lemma setKey_mem_preserve {β : Type} (d : List (String × β)) (k : String) (v : β)
    (k' : String) (v' : β) (hmem : (k, v) ∈ d) (hk : k' = k → v' = v) :
    (k, v) ∈ setKey d k' v' := by
  rw [setKey]
  by_cases h : d.any (fun p => p.1 = k') = true
  · rw [if_pos h]
    by_cases hkk : k = k'
    · subst hkk
      have hv : v' = v := hk rfl
      exact List.mem_map.2 ⟨(k, v), hmem, by simp [hv]⟩
    · exact List.mem_map.2 ⟨(k, v), hmem, by simp [hkk]⟩
  · rw [if_neg h]
    exact List.mem_append.2 (Or.inl hmem)

lemma download_fold_keys (oracle : String → DlOutcome) (folder : String) :
    ∀ (frames : List Frame) (st : List (String × String) × Fs) (k : String),
      k ∈ ((frames.foldl (downloadStep oracle folder) st).1.map Prod.fst) ↔
        k ∈ st.1.map Prod.fst ∨
          ∃ f ∈ frames, f.nodeId = .str k ∧ dlSucceeds oracle f = true
  | [], st, k => by simp
  | f :: fs', st, k => by
    rw [List.foldl_cons,
      download_fold_keys oracle folder fs' (downloadStep oracle folder st f) k]
    by_cases hsucc : dlSucceeds oracle f = true
    · rcases dlSucceeds_nodeId_str hsucc with ⟨nid, hnid⟩
      rcases downloadStep_succ oracle folder st f nid hnid hsucc with ⟨u, c, -, -, hstep⟩
      rw [hstep]
      simp only [setKey_keys_mem]
      constructor
      · rintro ((hk | rfl) | ⟨g, hg, hgk, hgs⟩)
        · exact Or.inl hk
        · exact Or.inr ⟨f, List.mem_cons_self f fs', hnid, hsucc⟩
        · exact Or.inr ⟨g, List.mem_cons_of_mem f hg, hgk, hgs⟩
      · rintro (hk | ⟨g, hg, hgk, hgs⟩)
        · exact Or.inl (Or.inl hk)
        · rcases List.mem_cons.1 hg with rfl | hg'
          · rw [hnid] at hgk
            injection hgk with hn2
            subst hn2
            exact Or.inl (Or.inr rfl)
          · exact Or.inr ⟨g, hg', hgk, hgs⟩
    · rw [downloadStep_skip oracle folder st f
        (by simp only [Bool.not_eq_true] at hsucc; exact hsucc)]
      constructor
      · rintro (hk | ⟨g, hg, hgk, hgs⟩)
        · exact Or.inl hk
        · exact Or.inr ⟨g, List.mem_cons_of_mem f hg, hgk, hgs⟩
      · rintro (hk | ⟨g, hg, hgk, hgs⟩)
        · exact Or.inl hk
        · rcases List.mem_cons.1 hg with rfl | hg'
          · exact absurd hgs hsucc
          · exact Or.inr ⟨g, hg', hgk, hgs⟩

lemma download_fold_fs_none (oracle : String → DlOutcome) (folder : String) :
    ∀ (frames : List Frame) (st : List (String × String) × Fs) (p : String),
      (frames.foldl (downloadStep oracle folder) st).2 p = none → st.2 p = none
  | [], _, _, h => h
  | f :: fs', st, p, h => by
    rw [List.foldl_cons] at h
    have h2 : (downloadStep oracle folder st f).2 p = none :=
      download_fold_fs_none oracle folder fs' _ p h
    by_cases hsucc : dlSucceeds oracle f = true
    · rcases dlSucceeds_nodeId_str hsucc with ⟨nid, hnid⟩
      rcases downloadStep_succ oracle folder st f nid hnid hsucc with ⟨u, c, -, -, hstep⟩
      rw [hstep] at h2
      simp only [writeFs] at h2
      by_cases hp : p = pyJoin folder (safe_node_id nid ++ ".png")
      · rw [if_pos hp] at h2
        simp at h2
      · rwa [if_neg hp] at h2
    · rwa [downloadStep_skip oracle folder st f
        (by simp only [Bool.not_eq_true] at hsucc; exact hsucc)] at h2

lemma download_fold_writes (oracle : String → DlOutcome) (folder : String) :
    ∀ (frames : List Frame) (st : List (String × String) × Fs) (f : Frame)
      (nid : String), f ∈ frames → f.nodeId = .str nid →
      dlSucceeds oracle f = true →
      ∃ content, (frames.foldl (downloadStep oracle folder) st).2
        (pyJoin folder (safe_node_id nid ++ ".png")) = some content
  | [], _, f, _, h, _, _ => absurd h (List.not_mem_nil f)
  | g :: fs', st, f, nid, hmem, hnid, hsucc => by
    rw [List.foldl_cons]
    rcases List.mem_cons.1 hmem with rfl | hmem'
    · rcases downloadStep_succ oracle folder st f nid hnid hsucc with ⟨u, c, -, -, hstep⟩
      rw [hstep]
      cases hfol : (fs'.foldl (downloadStep oracle folder)
          (setKey st.1 nid (pyJoin folder (safe_node_id nid ++ ".png")),
           writeFs st.2 (pyJoin folder (safe_node_id nid ++ ".png")) c)).2
          (pyJoin folder (safe_node_id nid ++ ".png")) with
      | none =>
        exfalso
        have hst := download_fold_fs_none oracle folder fs' _ _ hfol
        simp [writeFs] at hst
      | some content2 => exact ⟨content2, rfl⟩
    · exact download_fold_writes oracle folder fs' _ f nid hmem' hnid hsucc

lemma download_fold_paths_mem (oracle : String → DlOutcome) (folder : String) :
    ∀ (frames : List Frame) (st : List (String × String) × Fs) (nid : String),
      ((nid, pyJoin folder (safe_node_id nid ++ ".png")) ∈ st.1 ∨
        ∃ f ∈ frames, f.nodeId = .str nid ∧ dlSucceeds oracle f = true) →
      (nid, pyJoin folder (safe_node_id nid ++ ".png")) ∈
        (frames.foldl (downloadStep oracle folder) st).1
  | [], st, nid, h => by
    rcases h with h | ⟨f, hf, -⟩
    · exact h
    · exact absurd hf (List.not_mem_nil f)
  | g :: fs', st, nid, h => by
    rw [List.foldl_cons]
    apply download_fold_paths_mem oracle folder fs'
    by_cases hsucc : dlSucceeds oracle g = true
    · rcases dlSucceeds_nodeId_str hsucc with ⟨gid, hgid⟩
      rcases downloadStep_succ oracle folder st g gid hgid hsucc with ⟨u, c, -, -, hstep⟩
      rw [hstep]
      rcases h with hmem | ⟨f, hf, hfid, hfs⟩
      · left
        apply setKey_mem_preserve st.1 nid _ gid _ hmem
        intro he
        rw [he]
      · rcases List.mem_cons.1 hf with rfl | hf'
        · rw [hgid] at hfid
          injection hfid with hn2
          subst hn2
          exact Or.inl (setKey_mem_self st.1 _ _)
        · exact Or.inr ⟨f, hf', hfid, hfs⟩
    · rw [downloadStep_skip oracle folder st g
        (by simp only [Bool.not_eq_true] at hsucc; exact hsucc)]
      rcases h with hmem | ⟨f, hf, hfid, hfs⟩
      · exact Or.inl hmem
      · rcases List.mem_cons.1 hf with rfl | hf'
        · exact absurd hfs hsucc
        · exact Or.inr ⟨f, hf', hfid, hfs⟩

lemma download_images_eq (oracle : String → DlOutcome) (frames : List Frame)
    (session_id : String) (fs : Fs) :
    download_images oracle frames session_id fs =
      ((frames.foldl (downloadStep oracle (sessionFolder session_id)) ([], fs)).1,
        sessionFolder session_id,
        (frames.foldl (downloadStep oracle (sessionFolder session_id)) ([], fs)).2) := rfl

lemma get_image_eq (fs : Fs) (session_id node_id : String) :
    get_image fs session_id node_id =
      match fs (pyJoin (sessionFolder session_id) (safe_node_id node_id ++ ".png")) with
      | none => .notFound
      | some content => .fileResp
          (pyJoin (sessionFolder session_id) (safe_node_id node_id ++ ".png"))
          content := rfl

/-- C7: `download_images` is a total function (every per-frame failure is
caught and skipped): a frame with no `image_url` key leaves the state
untouched, so does any frame whose download fails, and the returned path
mapping holds exactly the node identifiers whose download succeeded,
alongside the session directory path. -/
theorem download_images_partial_success (oracle : String → DlOutcome)
    (frames : List Frame) (session_id : String) (fs : Fs) :
    (∀ k : String,
      k ∈ (download_images oracle frames session_id fs).1.map Prod.fst ↔
        ∃ f ∈ frames, f.nodeId = .str k ∧ dlSucceeds oracle f = true) ∧
    (download_images oracle frames session_id fs).2.1 = sessionFolder session_id ∧
    (∀ (st : List (String × String) × Fs) (f : Frame), f.imageUrl = none →
      downloadStep oracle (sessionFolder session_id) st f = st) ∧
    (∀ (st : List (String × String) × Fs) (f : Frame),
      dlSucceeds oracle f = false →
      downloadStep oracle (sessionFolder session_id) st f = st) := by
  refine ⟨?_, rfl, ?_, fun st f h => downloadStep_skip _ _ st f h⟩
  · intro k
    rw [download_images_eq]
    have h := download_fold_keys oracle (sessionFolder session_id) frames ([], fs) k
    simpa using h
  · intro st f h
    rcases f with ⟨nm, nid, iu⟩
    have h' : iu = none := h
    subst h'
    rfl

/-- Oracle used to instantiate the C7 theorem: the network always fails. -/
def dlOracleC7 : String → DlOutcome := fun _ => .netErr "connection refused"

theorem download_images_partial_success_witness :
    downloadStep dlOracleC7 (sessionFolder "s1") ([], fun _ => none)
      ⟨.str "Hero", .str "1:1", none⟩ = ([], fun _ => none) :=
  (download_images_partial_success dlOracleC7 [] "s1" (fun _ => none)).2.2.1
    ([], fun _ => none) ⟨.str "Hero", .str "1:1", none⟩ rfl

/-- C9: the serve-image endpoint sanitizes exactly as the downloader and
computes exactly the downloader's path (both are the same deterministic
function of the session/node pair); file writes replace previous content
(overwrite, never append); after a successful download of node `nid` the
path mapping contains `nid ↦ <session folder>/<safe nid>.png`, that file
exists, and `GET /images/<session>/<nid>` serves exactly that path; a path
never written (absent from the filesystem) yields the 404 response. -/
theorem download_serve_path_agreement :
    (∀ node_id : String, serve_safe_node_id node_id = safe_node_id node_id) ∧
    (∀ session_id node_id : String,
      pyJoin (pyJoin (pyJoin UPLOAD_FOLDER "frames") session_id)
        (serve_safe_node_id node_id ++ ".png") =
      pyJoin (sessionFolder session_id) (safe_node_id node_id ++ ".png")) ∧
    (∀ (fs : Fs) (p c1 c2 : String), writeFs (writeFs fs p c1) p c2 = writeFs fs p c2) ∧
    (∀ (oracle : String → DlOutcome) (frames : List Frame) (session_id : String)
      (fs : Fs) (f : Frame) (nid : String),
      f ∈ frames → f.nodeId = .str nid → dlSucceeds oracle f = true →
      (nid, pyJoin (sessionFolder session_id) (safe_node_id nid ++ ".png")) ∈
        (download_images oracle frames session_id fs).1 ∧
      ∃ content,
        get_image (download_images oracle frames session_id fs).2.2 session_id nid =
          .fileResp (pyJoin (sessionFolder session_id) (safe_node_id nid ++ ".png"))
            content) ∧
    (∀ (fs : Fs) (session_id node_id : String),
      fs (pyJoin (sessionFolder session_id) (safe_node_id node_id ++ ".png")) = none →
      get_image fs session_id node_id = .notFound) := by
  refine ⟨fun _ => rfl, fun _ _ => rfl, ?_, ?_, ?_⟩
  · intro fs p c1 c2
    funext q
    simp only [writeFs]
    by_cases hq : q = p
    · rw [if_pos hq, if_pos hq]
    · rw [if_neg hq, if_neg hq, if_neg hq]
  · intro oracle frames session_id fs f nid hmem hnid hsucc
    constructor
    · rw [download_images_eq]
      exact download_fold_paths_mem oracle (sessionFolder session_id) frames
        ([], fs) nid (Or.inr ⟨f, hmem, hnid, hsucc⟩)
    · rcases download_fold_writes oracle (sessionFolder session_id) frames
        ([], fs) f nid hmem hnid hsucc with ⟨content, hc⟩
      refine ⟨content, ?_⟩
      rw [get_image_eq, download_images_eq]
      rw [hc]
  · intro fs session_id node_id h
    rw [get_image_eq, h]

/-- Oracle used to instantiate the C9 theorem: every URL downloads. -/
def dlOracleC9 : String → DlOutcome := fun u => .resp 200 ("bytes:" ++ u)

theorem download_serve_path_agreement_witness :
    ∃ content,
      get_image (download_images dlOracleC9
          [⟨.str "Hero", .str "1:1", some (.str "https://img.example/x")⟩]
          "s1" (fun _ => none)).2.2 "s1" "1:1" =
        .fileResp (pyJoin (sessionFolder "s1") (safe_node_id "1:1" ++ ".png")) content :=
  (download_serve_path_agreement.2.2.2.1 dlOracleC9
    [⟨.str "Hero", .str "1:1", some (.str "https://img.example/x")⟩]
    "s1" (fun _ => none) ⟨.str "Hero", .str "1:1", some (.str "https://img.example/x")⟩
    "1:1" (List.mem_singleton.2 rfl) rfl rfl).2

/-! ## Frame extraction lemmas (C3) -/

/-- Total `get` on a JSON value (reference semantics for stating the
well-formed-case theorem; on objects it agrees with `pyGet`). -/
def getD (v : JVal) (k : String) (dflt : JVal) : JVal :=
  match v with
  | .obj fields => lookupD fields k dflt
  | _ => dflt

/-- `child.get("type") == "FRAME"` as a total predicate. -/
def childIsFrame (c : JVal) : Bool := isFrameType (getD c "type" .null)

/-- The Frame record built for one frame-kind child. -/
def frameOf (c : JVal) : Frame :=
  ⟨getD c "name" (.str "Unnamed Frame"), getD c "id" (.str ""), none⟩

/-- `page.get("children", [])` as a total function (array expected). -/
def childrenOf (page : JVal) : List JVal :=
  match getD page "children" (.arr []) with
  | .arr cs => cs
  | _ => []

/-- The frames contributed by one page, in child order. -/
def pageFramesOf (page : JVal) : List Frame :=
  ((childrenOf page).filter childIsFrame).map frameOf

/-- The parallel identifier list of a frame list: the node identifiers of
exactly the frames carrying a truthy identifier, in order. -/
def idsOf (fl : List Frame) : List JVal :=
  fl.filterMap (fun f => if truthy f.nodeId then some f.nodeId else none)

/-- C3 counterexample: frame extraction **can** raise. A page that is a
JSON string instead of an object makes `page.get("children", [])` raise
`AttributeError` (`'str' object has no attribute 'get'`). -/
theorem extract_frames_raises_on_malformed_page :
    extract_frames (.obj [("document", .obj [("children", .arr [.str "x"])])]) =
      .error .attrError := rfl

lemma lookupD_id_agree (cfs : List (String × JVal)) :
    truthy (lookupD cfs "id" .null) = truthy (lookupD cfs "id" (.str "")) ∧
    (truthy (lookupD cfs "id" .null) = true →
      lookupD cfs "id" .null = lookupD cfs "id" (.str "")) := by
  rw [lookupD, lookupD]
  cases cfs.lookup "id" with
  | none =>
    refine ⟨rfl, ?_⟩
    intro h
    simp [truthy] at h
  | some v => exact ⟨rfl, fun _ => rfl⟩

lemma extractChild_obj (acc : List Frame × List JVal) (cfs : List (String × JVal)) :
    extractChild acc (.obj cfs) =
      .ok (if childIsFrame (.obj cfs) then
            (acc.1 ++ [frameOf (.obj cfs)],
             if truthy (lookupD cfs "id" .null) then acc.2 ++ [lookupD cfs "id" .null]
             else acc.2)
          else acc) := by
  rw [extractChild]
  simp only [pyGet, childIsFrame, getD, frameOf]
  by_cases ht : isFrameType (lookupD cfs "type" .null) = true
  · simp [ht, bind, Except.bind, pure, Except.pure]
  · simp only [Bool.not_eq_true] at ht
    simp [ht, bind, Except.bind, pure, Except.pure]

lemma idsOf_nil : idsOf [] = [] := rfl

lemma idsOf_cons (f : Frame) (l : List Frame) :
    idsOf (f :: l) = if truthy f.nodeId then f.nodeId :: idsOf l else idsOf l := by
  by_cases h : truthy f.nodeId = true
  · simp [idsOf, List.filterMap_cons, h]
  · simp only [Bool.not_eq_true] at h
    simp [idsOf, List.filterMap_cons, h]

lemma idsOf_append (l₁ l₂ : List Frame) :
    idsOf (l₁ ++ l₂) = idsOf l₁ ++ idsOf l₂ := by
  simp [idsOf, List.filterMap_append]

lemma foldlM_extractChild :
    ∀ (cs : List JVal) (acc : List Frame × List JVal),
      (∀ c ∈ cs, ∃ cfs, c = .obj cfs) →
      cs.foldlM extractChild acc =
        .ok (acc.1 ++ (cs.filter childIsFrame).map frameOf,
             acc.2 ++ idsOf ((cs.filter childIsFrame).map frameOf))
  | [], acc, _ => by
    simp [idsOf]
    rfl
  | c :: cs', acc, hwf => by
    rcases hwf c (List.mem_cons_self c cs') with ⟨cfs, rfl⟩
    rw [List.foldlM_cons, extractChild_obj acc cfs]
    have hbind : ∀ (a : List Frame × List JVal),
        (Except.ok a >>= fun b => cs'.foldlM extractChild b :
          Except PyExc (List Frame × List JVal)) = cs'.foldlM extractChild a :=
      fun _ => rfl
    by_cases ht : childIsFrame (.obj cfs) = true
    · rw [if_pos ht, hbind,
        foldlM_extractChild cs' _ (fun d hd => hwf d (List.mem_cons_of_mem _ hd)),
        List.filter_cons_of_pos ht, List.map_cons, idsOf_cons]
      have hid := lookupD_id_agree cfs
      have hnode : (frameOf (JVal.obj cfs)).nodeId = lookupD cfs "id" (.str "") := rfl
      by_cases hidt : truthy (lookupD cfs "id" .null) = true
      · rw [if_pos hidt,
          if_pos (show truthy (frameOf (JVal.obj cfs)).nodeId = true by
            rw [hnode, ← hid.1]; exact hidt)]
        refine congrArg Except.ok (Prod.ext ?_ ?_)
        · show (acc.1 ++ [frameOf (JVal.obj cfs)]) ++ _ = _
          simp [List.append_assoc]
        · show (acc.2 ++ [lookupD cfs "id" JVal.null]) ++ _ = _
          rw [hnode, ← hid.2 hidt]
          simp [List.append_assoc]
      · have hidf : truthy (lookupD cfs "id" JVal.null) = false := by
          simp only [Bool.not_eq_true] at hidt
          exact hidt
        rw [if_neg (by simp [hidf]),
          if_neg (show ¬ truthy (frameOf (JVal.obj cfs)).nodeId = true by
            rw [hnode, ← hid.1]; simp [hidf])]
        refine congrArg Except.ok (Prod.ext ?_ ?_)
        · show (acc.1 ++ [frameOf (JVal.obj cfs)]) ++ _ = _
          simp [List.append_assoc]
        · rfl
    · simp only [Bool.not_eq_true] at ht
      rw [if_neg (by simp [ht]), hbind,
        foldlM_extractChild cs' _ (fun d hd => hwf d (List.mem_cons_of_mem _ hd)),
        List.filter_cons_of_neg (by simp [ht])]

lemma foldlM_extractPage :
    ∀ (pages : List JVal) (acc : List Frame × List JVal),
      (∀ pv ∈ pages, ∃ pfs, pv = .obj pfs ∧ ∃ cs,
        lookupD pfs "children" (.arr []) = .arr cs ∧ ∀ c ∈ cs, ∃ cfs, c = .obj cfs) →
      pages.foldlM extractPage acc =
        .ok (acc.1 ++ pages.flatMap pageFramesOf,
             acc.2 ++ idsOf (pages.flatMap pageFramesOf))
  | [], acc, _ => by
    simp [idsOf]
    rfl
  | pv :: pages', acc, hwf => by
    rcases hwf pv (List.mem_cons_self pv pages') with ⟨pfs, rfl, cs, hcs, hcwf⟩
    rw [List.foldlM_cons]
    have hchildren : childrenOf (.obj pfs) = cs := by
      rw [childrenOf, getD, hcs]
    have hpage : extractPage acc (.obj pfs) =
        .ok (acc.1 ++ pageFramesOf (.obj pfs),
             acc.2 ++ idsOf (pageFramesOf (.obj pfs))) := by
      rw [extractPage]
      simp only [pyGet, hcs, pyIter, bind, Except.bind]
      rw [foldlM_extractChild cs acc hcwf, pageFramesOf, hchildren]
    rw [hpage]
    have hbind : ∀ (a : List Frame × List JVal),
        (Except.ok a >>= fun b => pages'.foldlM extractPage b :
          Except PyExc (List Frame × List JVal)) = pages'.foldlM extractPage a :=
      fun _ => rfl
    rw [hbind,
      foldlM_extractPage pages' _ (fun d hd => hwf d (List.mem_cons_of_mem _ hd)),
      List.flatMap_cons]
    simp [idsOf_append, List.append_assoc]

/-- C3 (amended): on a well-formed tree — the `document` field (default
`{}`) an object, its `children` field (default `[]`) an array of objects,
and every page's `children` field (default `[]`) an array of objects —
extraction never raises and visits exactly the children of each page
(depth two, no recursion): it returns the Frame records of exactly the
children whose `type` is the string `"FRAME"`, in page-then-child order,
with missing names defaulting to `"Unnamed Frame"` and missing
identifiers to `""`, together with the parallel identifier list that
preserves this order and omits exactly the frames lacking a truthy
identifier.  (Unrestricted, extraction can raise — see the counterexample
theorem.) -/
theorem extract_frames_wellformed (fd dfs : List (String × JVal))
    (pageVals : List JVal)
    (hdoc : lookupD fd "document" (.obj []) = .obj dfs)
    (hpages : lookupD dfs "children" (.arr []) = .arr pageVals)
    (hwf : ∀ pv ∈ pageVals, ∃ pfs, pv = .obj pfs ∧ ∃ cs,
      lookupD pfs "children" (.arr []) = .arr cs ∧ ∀ c ∈ cs, ∃ cfs, c = .obj cfs) :
    extract_frames (.obj fd) =
      .ok (pageVals.flatMap pageFramesOf, idsOf (pageVals.flatMap pageFramesOf)) := by
  rw [extract_frames]
  simp only [pyGet, hdoc, hpages, pyIter, bind, Except.bind]
  have h := foldlM_extractPage pageVals ([], []) hwf
  simpa using h

/-- A well-formed one-page document used to instantiate the C3 theorem:
one proper frame, one non-frame child carrying an identifier, and one
frame with neither name nor identifier. -/
def wfPage : JVal :=
  .obj [("children", .arr [
    .obj [("type", .str "FRAME"), ("name", .str "Hero"), ("id", .str "1:1")],
    .obj [("type", .str "TEXT"), ("id", .str "9:9")],
    .obj [("type", .str "FRAME")]])]

theorem extract_frames_wellformed_witness :
    extract_frames (.obj [("document", .obj [("children", .arr [wfPage])])]) =
      .ok ([⟨.str "Hero", .str "1:1", none⟩, ⟨.str "Unnamed Frame", .str "", none⟩],
           [.str "1:1"]) := by
  have hwf : ∀ pv ∈ [wfPage], ∃ pfs, pv = .obj pfs ∧ ∃ cs,
      lookupD pfs "children" (.arr []) = .arr cs ∧ ∀ c ∈ cs, ∃ cfs, c = .obj cfs := by
    intro pv hpv
    rw [List.mem_singleton] at hpv
    subst hpv
    refine ⟨_, rfl, _, rfl, ?_⟩
    intro c hc
    rcases List.mem_cons.1 hc with rfl | hc'
    · exact ⟨_, rfl⟩
    rcases List.mem_cons.1 hc' with rfl | hc''
    · exact ⟨_, rfl⟩
    rcases List.mem_cons.1 hc'' with rfl | hc3
    · exact ⟨_, rfl⟩
    · exact absurd hc3 (List.not_mem_nil c)
  exact extract_frames_wellformed
    [("document", .obj [("children", .arr [wfPage])])]
    [("children", .arr [wfPage])] [wfPage] rfl rfl hwf

/-! ## Process-endpoint lemmas (C6) -/

/-- The string under a string-typed node identifier (`""` otherwise). -/
def nodeStr (f : Frame) : String :=
  match f.nodeId with
  | .str s => s
  | _ => ""

/-- The annotation loop body of `process_figma` (figma_api.py:151-152):
`frame['image_url'] = image_urls.get(frame['node_id'], '')`. -/
def annotate (image_urls : List (String × JVal)) (f : Frame) : Frame :=
  { f with imageUrl := some (dictGetJ image_urls f.nodeId (.str "")) }

/-- Did both rendering annotation and download succeed for this frame in
the process pipeline? -/
def frameDownloaded (oracle : String → DlOutcome) (image_urls : List (String × JVal))
    (f : Frame) : Bool :=
  dlSucceeds oracle (annotate image_urls f)

/-- The rendered URL string annotated onto a frame (`""` when the
annotation is not a string). -/
def urlStrOf (image_urls : List (String × JVal)) (f : Frame) : String :=
  match dictGetJ image_urls f.nodeId (.str "") with
  | .str s => s
  | _ => ""

lemma lookup_mem {β : Type} :
    ∀ (l : List (String × β)) (k : String) (v : β), l.lookup k = some v → (k, v) ∈ l
  | [], k, _, h => by simp [List.lookup] at h
  | (k', v') :: l', k, v, h => by
    by_cases hk : (k == k') = true
    · have hkk : k = k' := beq_iff_eq.1 hk
      subst hkk
      simp [List.lookup] at h
      subst h
      exact List.mem_cons_self _ _
    · have hkf : (k == k') = false := by
        simp only [Bool.not_eq_true] at hk
        exact hk
      have h2 : l'.lookup k = some v := by simpa [List.lookup, hkf] using h
      exact List.mem_cons_of_mem _ (lookup_mem l' k v h2)

lemma mapM_asStr_map : ∀ (l : List String), (l.map JVal.str).mapM asStr = .ok l
  | [] => rfl
  | s :: l' => by
    rw [List.map_cons, List.mapM_cons, mapM_asStr_map l']
    rfl

lemma lookup_map_keyfun :
    ∀ (l : List Frame) (g : String → String) (s : String),
      s ∈ l.map nodeStr →
      (l.map (fun f => (nodeStr f, g (nodeStr f)))).lookup s = some (g s)
  | [], _, s, h => absurd h (List.not_mem_nil s)
  | f :: l', g, s, h => by
    rw [List.map_cons]
    by_cases hs : (s == nodeStr f) = true
    · have hsf : s = nodeStr f := beq_iff_eq.1 hs
      subst hsf
      simp [List.lookup]
    · have hsf : (s == nodeStr f) = false := by
        simp only [Bool.not_eq_true] at hs
        exact hs
      have hmem : s ∈ l'.map nodeStr := by
        rw [List.map_cons] at h
        rcases List.mem_cons.1 h with rfl | hm
        · simp at hsf
        · exact hm
      simp [List.lookup, hsf, lookup_map_keyfun l' g s hmem]

lemma download_fold_paths_nodup (oracle : String → DlOutcome) (folder : String) :
    ∀ (frames : List Frame) (st : List (String × String) × Fs),
      (∀ f ∈ frames, dlSucceeds oracle f = true → ∀ p ∈ st.1, p.1 ≠ nodeStr f) →
      (frames.map nodeStr).Nodup →
      (frames.foldl (downloadStep oracle folder) st).1 =
        st.1 ++ (frames.filter (fun f => dlSucceeds oracle f)).map
          (fun f => (nodeStr f, pyJoin folder (safe_node_id (nodeStr f) ++ ".png")))
  | [], st, _, _ => by simp
  | g :: fs', st, hdisj, hnod => by
    rw [List.foldl_cons]
    simp only [List.map_cons, List.nodup_cons] at hnod
    by_cases hsucc : dlSucceeds oracle g = true
    · rcases dlSucceeds_nodeId_str hsucc with ⟨gid, hgid⟩
      have hgs : nodeStr g = gid := by simp [nodeStr, hgid]
      rcases downloadStep_succ oracle folder st g gid hgid hsucc with ⟨u, c, -, -, hstep⟩
      rw [hstep]
      have hset : setKey st.1 gid (pyJoin folder (safe_node_id gid ++ ".png")) =
          st.1 ++ [(gid, pyJoin folder (safe_node_id gid ++ ".png"))] := by
        apply setKey_append_of_not_mem
        intro p hp
        have h2 := hdisj g (List.mem_cons_self g fs') hsucc p hp
        rw [hgs] at h2
        exact h2
      have hdisj2 : ∀ f ∈ fs', dlSucceeds oracle f = true →
          ∀ p ∈ (setKey st.1 gid (pyJoin folder (safe_node_id gid ++ ".png")),
              writeFs st.2 (pyJoin folder (safe_node_id gid ++ ".png")) c).1,
            p.1 ≠ nodeStr f := by
        intro f hf hfs p hp
        have hp' : p ∈ setKey st.1 gid (pyJoin folder (safe_node_id gid ++ ".png")) := hp
        rw [hset] at hp'
        rcases List.mem_append.1 hp' with hp2 | hp2
        · exact hdisj f (List.mem_cons_of_mem g hf) hfs p hp2
        · rcases List.mem_singleton.1 hp2 with rfl
          intro he
          have he' : gid = nodeStr f := he
          exact hnod.1 (by rw [hgs, he']; exact List.mem_map_of_mem nodeStr hf)
      rw [download_fold_paths_nodup oracle folder fs' _ hdisj2 hnod.2,
        List.filter_cons_of_pos hsucc, List.map_cons, hgs]
      have hproj : (setKey st.1 gid (pyJoin folder (safe_node_id gid ++ ".png")),
          writeFs st.2 (pyJoin folder (safe_node_id gid ++ ".png")) c).1 =
          setKey st.1 gid (pyJoin folder (safe_node_id gid ++ ".png")) := rfl
      rw [hproj, hset, List.append_assoc]
      rfl
    · have hfalse : dlSucceeds oracle g = false := by
        simp only [Bool.not_eq_true] at hsucc
        exact hsucc
      rw [downloadStep_skip oracle folder st g hfalse,
        download_fold_paths_nodup oracle folder fs' st
          (fun f hf2 hfs p hp => hdisj f (List.mem_cons_of_mem g hf2) hfs p hp) hnod.2,
        List.filter_cons_of_neg (by simp [hfalse])]

/-- C6: on a successful `/process-figma` run (both fields present, key
extraction, document fetch, frame extraction and every render chunk
succeed; rendered URLs are strings keyed by node identifier, node
identifiers are distinct strings, and `requests.get("")` raises — the
`MissingSchema` behaviour), the response is the success envelope whose
`total_frames` counts exactly the frames whose annotated rendered-image
URL is truthy (computed before the download step), whose `images` list
holds exactly the frames whose node identifier entered the download path
mapping — and membership there is equivalent to "rendering produced a
non-empty URL and its download returned HTTP 200" — and whose
`session_folder` is the session directory path. -/
theorem process_figma_success_envelope
    (deps : Deps) (d : List (String × JVal)) (u sid t fk : String)
    (restT : List FileOutcome) (fd : JVal) (frames : List Frame) (fids : List JVal)
    (idsS : List String) (image_urls : List (String × JVal)) (em : String)
    (hu : d.lookup "figma_url" = some (.str u))
    (hs : d.lookup "session_id" = some (.str sid))
    (hkey : extract_file_key u = .ok fk)
    (htrace : deps.fileTrace = .resp 200 t fd :: restT)
    (hex : extract_frames fd = .ok (frames, fids))
    (hids : fids = idsS.map JVal.str)
    (hrender : fetch_figma_frame_images deps.renderOracle fk idsS = .ok image_urls)
    (hvals : ∀ p ∈ image_urls, ∃ s, p.2 = JVal.str s)
    (hnodes : ∀ f ∈ frames, ∃ s, f.nodeId = .str s)
    (hnodup : (frames.map nodeStr).Nodup)
    (hEmpty : deps.dlOracle "" = .netErr em) :
    process_figma deps (some (.obj d)) =
      .success ⟨
        (frames.filter (fun f => truthy (dictGetJ image_urls f.nodeId (.str "")))).length,
        (frames.filter (fun f => frameDownloaded deps.dlOracle image_urls f)).map
          (fun f => (f.name, f.nodeId,
            pyJoin (sessionFolder sid) (safe_node_id (nodeStr f) ++ ".png"))),
        sessionFolder sid⟩ ∧
    (∀ f ∈ frames,
      frameDownloaded deps.dlOracle image_urls f = true ↔
        (truthy (dictGetJ image_urls f.nodeId (.str "")) = true ∧
          ∃ content, deps.dlOracle (urlStrOf image_urls f) = .resp 200 content)) := by
  have hannot_map : (frames.map (annotate image_urls)).map nodeStr =
      frames.map nodeStr := by
    rw [List.map_map]
    exact List.map_congr_left (fun f0 _ => rfl)
  constructor
  · -- ① the response value
    have hd : d ≠ [] := by
      intro h0
      subst h0
      simp [List.lookup] at hu
    have htru : truthy (.obj d) = true := by simp [truthy, hd]
    have hk1 : hasKeyStr (.obj d) "figma_url" = .ok true := by
      rw [hasKeyStr]
      exact congrArg Except.ok
        (List.any_eq_true.2 ⟨_, lookup_mem d _ _ hu, by simp⟩)
    have hk2 : hasKeyStr (.obj d) "session_id" = .ok true := by
      rw [hasKeyStr]
      exact congrArg Except.ok
        (List.any_eq_true.2 ⟨_, lookup_mem d _ _ hs, by simp⟩)
    have hsub1 : pySubscript (.obj d) "figma_url" = .ok (.str u) := by
      simp only [pySubscript, hu]
    have hsub2 : pySubscript (.obj d) "session_id" = .ok (.str sid) := by
      simp only [pySubscript, hs]
    have hfetch : (fetch_figma_file fk deps.fileTrace).1 = .ok fd := by
      rw [htrace]
      rfl
    have hmapM : fids.mapM asStr = .ok idsS := by
      rw [hids]
      exact mapM_asStr_map idsS
    have hann_eq : frames.map (fun f =>
        { f with imageUrl := some (dictGetJ image_urls f.nodeId (.str "")) }) =
        frames.map (annotate image_urls) := rfl
    -- the download result over the annotated frames
    have hpaths : (download_images deps.dlOracle (frames.map (annotate image_urls))
        sid deps.fs).1 =
        ((frames.map (annotate image_urls)).filter
          (fun f => dlSucceeds deps.dlOracle f)).map
          (fun f => (nodeStr f,
            pyJoin (sessionFolder sid) (safe_node_id (nodeStr f) ++ ".png"))) := by
      rw [download_images_eq,
        download_fold_paths_nodup deps.dlOracle (sessionFolder sid)
          (frames.map (annotate image_urls)) ([], deps.fs)
          (fun f _ _ p hp => absurd hp (List.not_mem_nil p))
          (by rw [hannot_map]; exact hnodup)]
      simp
    have hfilter_eq : (frames.map (annotate image_urls)).filter
        (fun f => containsNodeKey (download_images deps.dlOracle
          (frames.map (annotate image_urls)) sid deps.fs).1 f.nodeId) =
        (frames.map (annotate image_urls)).filter
          (fun f => dlSucceeds deps.dlOracle f) := by
      apply List.filter_congr
      intro f hf
      rcases List.mem_map.1 hf with ⟨f0, hf0, rfl⟩
      rcases hnodes f0 hf0 with ⟨s, hs0⟩
      have hfn : (annotate image_urls f0).nodeId = .str s := hs0
      rw [hfn, hpaths]
      simp only [containsNodeKey]
      by_cases hdl : dlSucceeds deps.dlOracle (annotate image_urls f0) = true
      · rw [hdl]
        apply List.any_eq_true.2
        refine ⟨(s, pyJoin (sessionFolder sid) (safe_node_id s ++ ".png")), ?_, by simp⟩
        apply List.mem_map.2
        refine ⟨annotate image_urls f0,
          List.mem_filter.2 ⟨List.mem_map_of_mem _ hf0, hdl⟩, ?_⟩
        have hns : nodeStr (annotate image_urls f0) = s := by
          simp [nodeStr, hfn]
        rw [hns]
      · have hdlf : dlSucceeds deps.dlOracle (annotate image_urls f0) = false := by
          simp only [Bool.not_eq_true] at hdl
          exact hdl
        rw [hdlf]
        cases hany : (((frames.map (annotate image_urls)).filter
            (fun f => dlSucceeds deps.dlOracle f)).map
            (fun f => (nodeStr f,
              pyJoin (sessionFolder sid) (safe_node_id (nodeStr f) ++ ".png")))).any
            (fun p => p.1 = s) with
        | false => rfl
        | true =>
          exfalso
          rcases List.any_eq_true.1 hany with ⟨p, hp, hpk⟩
          rcases List.mem_map.1 hp with ⟨g, hg, rfl⟩
          have hgk : nodeStr g = s := by simpa using hpk
          have hgmem : g ∈ frames.map (annotate image_urls) := (List.mem_filter.1 hg).1
          have hgdl : dlSucceeds deps.dlOracle g = true := by
            have h2 := (List.mem_filter.1 hg).2
            simpa using h2
          have hinj := List.inj_on_of_nodup_map
            (by rw [hannot_map]; exact hnodup :
              ((frames.map (annotate image_urls)).map nodeStr).Nodup)
          have hfual : nodeStr (annotate image_urls f0) = s := by
            simp [nodeStr, hfn]
          have hgf : g = annotate image_urls f0 :=
            hinj hgmem (List.mem_map_of_mem _ hf0) (by rw [hgk, hfual])
          rw [hgf] at hgdl
          exact absurd hgdl (by rw [hdlf]; decide)
    have htotal : ((frames.map (annotate image_urls)).filter imageUrlTruthy).length =
        (frames.filter
          (fun f => truthy (dictGetJ image_urls f.nodeId (.str "")))).length := by
      rw [List.filter_map, List.length_map]
      have hpred : (imageUrlTruthy ∘ annotate image_urls) =
          (fun f => truthy (dictGetJ image_urls f.nodeId (.str ""))) := rfl
      rw [hpred]
    have himages : ((frames.map (annotate image_urls)).filter
        (fun f => dlSucceeds deps.dlOracle f)).map
        (fun f => (f.name, f.nodeId,
          dictGetS (download_images deps.dlOracle (frames.map (annotate image_urls))
            sid deps.fs).1 f.nodeId)) =
        (frames.filter (fun f => frameDownloaded deps.dlOracle image_urls f)).map
          (fun f => (f.name, f.nodeId,
            pyJoin (sessionFolder sid) (safe_node_id (nodeStr f) ++ ".png"))) := by
      rw [List.filter_map, List.map_map]
      have hpred : ((fun f => dlSucceeds deps.dlOracle f) ∘ annotate image_urls) =
          (fun f => frameDownloaded deps.dlOracle image_urls f) := rfl
      rw [hpred]
      apply List.map_congr_left
      intro f0 hf0m
      have hf0 : f0 ∈ frames := (List.mem_filter.1 hf0m).1
      have hdl : frameDownloaded deps.dlOracle image_urls f0 = true := by
        have h2 := (List.mem_filter.1 hf0m).2
        simpa using h2
      rcases hnodes f0 hf0 with ⟨s, hs0⟩
      show (f0.name, f0.nodeId,
          dictGetS (download_images deps.dlOracle (frames.map (annotate image_urls))
            sid deps.fs).1 f0.nodeId) = _
      have hns : nodeStr f0 = s := by simp [nodeStr, hs0]
      have hdgs : dictGetS (download_images deps.dlOracle
          (frames.map (annotate image_urls)) sid deps.fs).1 f0.nodeId =
          pyJoin (sessionFolder sid) (safe_node_id (nodeStr f0) ++ ".png") := by
        rw [hs0]
        simp only [dictGetS]
        have hmm : s ∈ ((frames.map (annotate image_urls)).filter
            (fun f => dlSucceeds deps.dlOracle f)).map nodeStr := by
          apply List.mem_map.2
          refine ⟨annotate image_urls f0,
            List.mem_filter.2 ⟨List.mem_map_of_mem _ hf0, hdl⟩, ?_⟩
          have hfn : (annotate image_urls f0).nodeId = .str s := hs0
          simp [nodeStr, hfn]
        rw [hpaths, lookup_map_keyfun
          ((frames.map (annotate image_urls)).filter
            (fun f => dlSucceeds deps.dlOracle f))
          (fun z => pyJoin (sessionFolder sid) (safe_node_id z ++ ".png")) s hmm, hns]
      rw [hdgs]
    -- reduce the handler and close
    have hinner : process_inner deps (some (.obj d)) = .ok
        (⟨(frames.filter
            (fun f => truthy (dictGetJ image_urls f.nodeId (.str "")))).length,
          (frames.filter (fun f => frameDownloaded deps.dlOracle image_urls f)).map
            (fun f => (f.name, f.nodeId,
              pyJoin (sessionFolder sid) (safe_node_id (nodeStr f) ++ ".png"))),
          sessionFolder sid⟩,
         (download_images deps.dlOracle (frames.map (annotate image_urls))
            sid deps.fs).2.2) := by
      simp only [process_inner, htru, hk1, hk2, hsub1, hsub2, asStr, hkey, hfetch,
        hex, hmapM, hrender, Bool.true_eq_false, if_false, hann_eq]
      rw [hfilter_eq, himages, htotal]
      rfl
    simp only [process_figma, hinner]
  · -- ② membership in the final result ↔ rendering and download both succeeded
    intro f hf
    rcases hnodes f hf with ⟨s, hsf⟩
    have hurl : ∃ us, dictGetJ image_urls f.nodeId (.str "") = .str us ∧
        urlStrOf image_urls f = us := by
      cases hlk : image_urls.lookup s with
      | none =>
        refine ⟨"", ?_, ?_⟩
        · simp [dictGetJ, hsf, lookupD, hlk]
        · simp [urlStrOf, dictGetJ, hsf, lookupD, hlk]
      | some v =>
        rcases hvals (s, v) (lookup_mem _ _ _ hlk) with ⟨us, hus⟩
        have hv : v = .str us := hus
        refine ⟨us, ?_, ?_⟩
        · simp [dictGetJ, hsf, lookupD, hlk, hv]
        · simp [urlStrOf, dictGetJ, hsf, lookupD, hlk, hv]
    rcases hurl with ⟨us, hus, huso⟩
    rw [frameDownloaded]
    have hann : annotate image_urls f = ⟨f.name, f.nodeId, some (.str us)⟩ := by
      rw [annotate, hus]
    rw [hann, hsf]
    constructor
    · intro htrue
      cases horacle : deps.dlOracle us with
      | netErr m =>
        exfalso
        simp [dlSucceeds, horacle] at htrue
      | resp st c =>
        have h200 : st = 200 := by simpa [dlSucceeds, horacle] using htrue
        subst h200
        constructor
        · rw [← hsf, hus]
          simp only [truthy, decide_eq_true_eq]
          intro h0
          rw [h0, hEmpty] at horacle
          cases horacle
        · rw [huso]
          exact ⟨c, horacle⟩
    · rintro ⟨-, content, hresp⟩
      rw [huso] at hresp
      simp [dlSucceeds, hresp]

/-- One-page, one-frame document used to instantiate the C6 theorem
(the spec's end-to-end example). -/
def docC6 : JVal :=
  .obj [("document", .obj [("children", .arr [
    .obj [("children", .arr [
      .obj [("type", .str "FRAME"), ("name", .str "Hero"), ("id", .str "1:1")]])]])])]

/-- Dependencies used to instantiate the C6 theorem: the document fetch
returns `docC6`, rendering succeeds for node `1:1`, and every download of
a non-empty URL returns HTTP 200 (`requests.get("")` raises
`MissingSchema`). -/
def depsC6 : Deps where
  fileTrace := [.resp 200 "" docC6]
  renderOracle := fun _ _ => .resp 200 "" none [("1:1", .str "https://img.example/hero")]
  dlOracle := fun url =>
    if url = "" then .netErr "MissingSchema" else .resp 200 ("bytes:" ++ url)
  fs := fun _ => none

theorem process_figma_success_envelope_witness :
    process_figma depsC6 (some (.obj [
        ("figma_url", .str "https://www.figma.com/file/ABC123/Test"),
        ("session_id", .str "s1")])) =
      .success ⟨1, [(.str "Hero", .str "1:1", "/app/uploads/frames/s1/1_1.png")],
        "/app/uploads/frames/s1"⟩ := by
  have hvals : ∀ p ∈ [(("1:1" : String), JVal.str "https://img.example/hero")],
      ∃ s, p.2 = JVal.str s := by
    intro p hp
    rw [List.mem_singleton] at hp
    subst hp
    exact ⟨_, rfl⟩
  have hnodes : ∀ f ∈ [(⟨.str "Hero", .str "1:1", none⟩ : Frame)],
      ∃ s, f.nodeId = JVal.str s := by
    intro f hf
    rw [List.mem_singleton] at hf
    subst hf
    exact ⟨_, rfl⟩
  exact (process_figma_success_envelope depsC6
    [("figma_url", .str "https://www.figma.com/file/ABC123/Test"),
     ("session_id", .str "s1")]
    "https://www.figma.com/file/ABC123/Test" "s1" "" "ABC123" [] docC6
    [⟨.str "Hero", .str "1:1", none⟩] [.str "1:1"] ["1:1"]
    [("1:1", .str "https://img.example/hero")] "MissingSchema"
    rfl rfl rfl rfl rfl rfl rfl hvals hnodes (by decide) rfl).1

end Figma
